import Mathlib

/-!
Reprojection residual of `rct_optimizations` (camera on wrist)

Shallow embedding of `src/rct_optimizations/src/rct_optimizations/extrinsic_camera_on_wrist.cpp`.

The C++ code is templated over a numeric type `T` (plain `double`, or an
automatic-differentiation number).  Here

* `D` stands for `double` and `T` for the template parameter; both are fields
  with exact arithmetic, and `T` is linearly ordered (the code compares `T`
  values).  This is the code read over exact numbers.  The one instantiation in
  the source, `T = double`, rounds every operation: it is embedded a second time,
  with IEEE 754 binary64 arithmetic, in the section on `F64` and `binary64`;
  properties that rest on the cancellation laws of a field are settled there;
* the conversion `T(d)` of a `double` into `T` is a ring homomorphism `cast : D →+* T`
  (the identity when `T = double`);
* the operations of `T` whose result is not fixed by the field axioms
  (division by zero, `sqrt`, `sin`, `cos`) are carried by a record `Scalar T`.
  Division is only specified for a nonzero divisor, so a result that holds for
  every `Scalar T` cannot depend on a quotient by zero;
* C arrays `T[3]`, `T[2]` and a 6-element parameter block `const T*` are records
  of 3, 2 and 6 components.
-/

namespace rct_optimizations

/-! ## Data model -/

/-- C array `T[3]`: components `[0]`, `[1]`, `[2]`. -/
@[ext]
structure Vec3 (T : Type) where
  x : T
  y : T
  z : T
deriving DecidableEq

/-- C array `T[2]`: components `[0]`, `[1]`. -/
@[ext]
structure Vec2 (T : Type) where
  x : T
  y : T
deriving DecidableEq

/-- Parameter block `const T*` of 6 scalars, components `[0]` to `[5]`. -/
@[ext]
structure ParamBlock (T : Type) where
  p0 : T
  p1 : T
  p2 : T
  p3 : T
  p4 : T
  p5 : T
deriving DecidableEq

/-- Modelled from the spec: `CameraIntrinsics` is declared in `rct_optimizations/types.h`, which is
not among the sources.  Spec section 3: an ideal pinhole camera with focal lengths `fx`, `fy` and
principal point `cx`, `cy`. -/
@[ext]
structure CameraIntrinsics (D : Type) where
  fx : D
  fy : D
  cx : D
  cy : D
deriving DecidableEq

/-- Modelled from the spec: `Observation2d` is declared in `rct_optimizations/types.h`, which is
not among the sources.  Spec section 3: a detected pixel location, 2 scalars. -/
@[ext]
structure Observation2d (D : Type) where
  x : D
  y : D
deriving DecidableEq

/-- Modelled from the spec: `Point3d` is declared in `rct_optimizations/types.h`, which is
not among the sources.  Spec section 3: a known 3D point of the target, 3 scalars, read by the
code as `values[0]`, `values[1]`, `values[2]`. -/
@[ext]
structure Point3d (D : Type) where
  values : Vec3 D
deriving DecidableEq

/-- Modelled from the spec: `Pose6d` is declared in `rct_optimizations/types.h`, which is
not among the sources.  Spec section 3: 3 axis-angle rotation components followed by 3 translation
components; the code builds one from the list `rx, ry, rz, x, y, z` and reads the six accessors. -/
@[ext]
structure Pose6d (D : Type) where
  rx : D
  ry : D
  rz : D
  x : D
  y : D
  z : D
deriving DecidableEq

/-- The array `pose.values` handed to the cost functor as a parameter block. -/
def Pose6d.values {D : Type} (pose : Pose6d D) : ParamBlock D :=
  ⟨pose.rx, pose.ry, pose.rz, pose.x, pose.y, pose.z⟩

/-- Operations of the numeric type `T` that the field structure does not determine. `div` is the
C++ `operator/`; it is the field quotient whenever the divisor is nonzero and is left unspecified
for a zero divisor.  For `T = double` with its rounding, see `F64`. -/
structure Scalar (T : Type) [Field T] where
  div : T → T → T
  div_spec : ∀ a b : T, b ≠ 0 → div a b = a / b
  sqrt : T → T
  sin : T → T
  cos : T → T

/-- The scalar operations of a field in which `x / 0` is given the value of the field quotient;
`sqrt`, `sin`, `cos` are supplied by the caller. -/
def Scalar.ofField {T : Type} [Field T] (sqrt sin cos : T → T) : Scalar T :=
  ⟨fun a b => a / b, fun _ _ _ => rfl, sqrt, sin, cos⟩

/-- The constant `std::numeric_limits<double>::epsilon()`, that is 2 to the power -52. -/
def numeric_limits_epsilon {D : Type} [Field D] : D := 1 / 2 ^ 52

/-! ## The rotation primitive -/

/-- Modelled from the spec: `ceres::AngleAxisRotatePoint` is library code (`ceres/rotation.h`),
not among the sources.  Spec sections 3, 4.2 and 6: the rotation is an axis-angle vector (magnitude
is the angle, direction is the axis) applied to a point, and a zero rotation is a no-op, not a
singular computation.  The model is the algorithm of the library: with `theta2` the squared norm
of `angle_axis`, away from zero (`theta2 > epsilon`) the Rodrigues formula
`pt cos(theta) + (w x pt) sin(theta) + w (w . pt) (1 - cos(theta))` with `theta = sqrt(theta2)`
and `w = angle_axis * (1 / theta)`; otherwise the first-order form `pt + angle_axis x pt`. -/
def AngleAxisRotatePoint {D T : Type} [Field D] [LinearOrderedField T]
    (cast : D →+* T) (ops : Scalar T) (angle_axis pt : Vec3 T) : Vec3 T :=
  let theta2 := angle_axis.x * angle_axis.x + angle_axis.y * angle_axis.y
    + angle_axis.z * angle_axis.z
  if theta2 > cast numeric_limits_epsilon then
    let theta := ops.sqrt theta2
    let costheta := ops.cos theta
    let sintheta := ops.sin theta
    let theta_inverse := ops.div 1 theta
    let w : Vec3 T :=
      ⟨angle_axis.x * theta_inverse, angle_axis.y * theta_inverse, angle_axis.z * theta_inverse⟩
    let w_cross_pt : Vec3 T :=
      ⟨w.y * pt.z - w.z * pt.y, w.z * pt.x - w.x * pt.z, w.x * pt.y - w.y * pt.x⟩
    let tmp := (w.x * pt.x + w.y * pt.y + w.z * pt.z) * (1 - costheta)
    ⟨pt.x * costheta + w_cross_pt.x * sintheta + w.x * tmp,
     pt.y * costheta + w_cross_pt.y * sintheta + w.y * tmp,
     pt.z * costheta + w_cross_pt.z * sintheta + w.z * tmp⟩
  else
    let w_cross_pt : Vec3 T :=
      ⟨angle_axis.y * pt.z - angle_axis.z * pt.y,
       angle_axis.z * pt.x - angle_axis.x * pt.z,
       angle_axis.x * pt.y - angle_axis.y * pt.x⟩
    ⟨pt.x + w_cross_pt.x, pt.y + w_cross_pt.y, pt.z + w_cross_pt.z⟩

/-! ## Functions of `extrinsic_camera_on_wrist.cpp` -/

/-- Source `transformPoint3D` (lines 12-26): the point is a `std::vector<double>` read at the
indices 0, 1, 2 without a bounds check; a vector with fewer than 3 elements has no defined
result. -/
def transformPoint3D {D T : Type} [Field D] [LinearOrderedField T]
    (cast : D →+* T) (ops : Scalar T) (angle_axis tx : Vec3 T) (point : List D) :
    Option (Vec3 T) :=
  match point with
  | p0 :: p1 :: p2 :: _ =>
    let point_ : Vec3 T := ⟨cast p0, cast p1, cast p2⟩
    let t_point := AngleAxisRotatePoint cast ops angle_axis point_
    some ⟨t_point.x + tx.x, t_point.y + tx.y, t_point.z + tx.z⟩
  | _ => none

/-- Source `poseTransformPoint` (lines 28-42): the fixed pose is converted to `T` component by
component, the point is rotated, then the translation is added. -/
def poseTransformPoint {D T : Type} [Field D] [LinearOrderedField T]
    (cast : D →+* T) (ops : Scalar T) (pose : Pose6d D) (point : Vec3 T) : Vec3 T :=
  let angle_axis : Vec3 T := ⟨cast pose.rx, cast pose.ry, cast pose.rz⟩
  let t_point := AngleAxisRotatePoint cast ops angle_axis point
  ⟨t_point.x + cast pose.x, t_point.y + cast pose.y, t_point.z + cast pose.z⟩

/-- Source `transformPoint` (lines 44-52): rotate by `angle_axis`, then add `tx`. -/
def transformPoint {D T : Type} [Field D] [LinearOrderedField T]
    (cast : D →+* T) (ops : Scalar T) (angle_axis tx point : Vec3 T) : Vec3 T :=
  let t_point := AngleAxisRotatePoint cast ops angle_axis point
  ⟨t_point.x + tx.x, t_point.y + tx.y, t_point.z + tx.z⟩

/-- Source `cameraPointResidual` (lines 54-78): projection and subtraction of the observed pixel
`(ox, oy)`, all arguments of type `T`, with the guard on `zp1 == T(0)`. -/
def cameraPointResidual {T : Type} [LinearOrderedField T]
    (ops : Scalar T) (point : Vec3 T) (fx fy cx cy ox oy : T) : Vec2 T :=
  let xp1 := point.x
  let yp1 := point.y
  let zp1 := point.z
  let xpyp : T × T :=
    if zp1 = 0 then (xp1, yp1)
    else (ops.div xp1 zp1, ops.div yp1 zp1)
  ⟨fx * xpyp.1 + cx - ox, fy * xpyp.2 + cy - oy⟩

/-- Source `projectPoint` (lines 80-104): pinhole projection with the guard on `zp1 == T(0)`. -/
def projectPoint {D T : Type} [Field D] [LinearOrderedField T]
    (cast : D →+* T) (ops : Scalar T) (intr : CameraIntrinsics D) (point : Vec3 T) : Vec2 T :=
  let xp1 := point.x
  let yp1 := point.y
  let zp1 := point.z
  let xpyp : T × T :=
    if zp1 = 0 then (xp1, yp1)
    else (ops.div xp1 zp1, ops.div yp1 zp1)
  ⟨cast intr.fx * xpyp.1 + cast intr.cx, cast intr.fy * xpyp.2 + cast intr.cy⟩

/-- The class `ReprojectionCost` (lines 106-158): the data fixed at construction. -/
structure ReprojectionCost (D : Type) where
  obs_ : Observation2d D
  intr_ : CameraIntrinsics D
  wrist_pose_ : Pose6d D
  target_pt_ : Point3d D
deriving DecidableEq

/-- Source `ReprojectionCost::operator()` (lines 123-151).  The first component of the result is the
returned `bool`, the second is the array `residual` after the call. -/
def ReprojectionCost.operator {D T : Type} [Field D] [LinearOrderedField T]
    (cast : D →+* T) (ops : Scalar T) (self : ReprojectionCost D)
    (pose_camera_to_wrist pose_base_to_target : ParamBlock T) : Bool × Vec2 T :=
  let camera_angle_axis : Vec3 T :=
    ⟨pose_camera_to_wrist.p0, pose_camera_to_wrist.p1, pose_camera_to_wrist.p2⟩
  let camera_position : Vec3 T :=
    ⟨pose_camera_to_wrist.p3, pose_camera_to_wrist.p4, pose_camera_to_wrist.p5⟩
  let target_angle_axis : Vec3 T :=
    ⟨pose_base_to_target.p0, pose_base_to_target.p1, pose_base_to_target.p2⟩
  let target_position : Vec3 T :=
    ⟨pose_base_to_target.p3, pose_base_to_target.p4, pose_base_to_target.p5⟩
  let target_pt : Vec3 T :=
    ⟨cast self.target_pt_.values.x, cast self.target_pt_.values.y, cast self.target_pt_.values.z⟩
  let world_point := transformPoint cast ops target_angle_axis target_position target_pt
  let link_point := poseTransformPoint cast ops self.wrist_pose_ world_point
  let camera_point := transformPoint cast ops camera_angle_axis camera_position link_point
  let xy_image := projectPoint cast ops self.intr_ camera_point
  (true, ⟨xy_image.x - cast self.obs_.x, xy_image.y - cast self.obs_.y⟩)

/-- Modelled from the spec: `ExtrinsicCameraOnWristResult` is declared in
`rct_optimizations/extrinsic_camera_on_wrist.h`, which is not among the sources.  Spec section 3,
`Result`: the converged flag, the initial and final average per-residual pixel error, the fitted
poses; the names of the first three fields are those of `MultiStaticCameraPnPResult`
(`multi_static_camera_pnp.h`, lines 45-70). -/
@[ext]
structure ExtrinsicCameraOnWristResult (D : Type) where
  converged : Bool
  initial_cost_per_obs : D
  final_cost_per_obs : D
  base_to_target : Pose6d D
  camera_to_wrist : Pose6d D
deriving DecidableEq

/-- The value of the expression `{}` of type `ExtrinsicCameraOnWristResult`: every scalar member
is zero-initialised (`false` for the flag). -/
def ExtrinsicCameraOnWristResult.value_initialized {D : Type} [Zero D] :
    ExtrinsicCameraOnWristResult D :=
  ⟨false, 0, 0, ⟨0, 0, 0, 0, 0, 0⟩, ⟨0, 0, 0, 0, 0, 0⟩⟩

/-- Modelled from the spec: one entry of a `CorrespondenceSet` (`rct_optimizations/types.h`, not
among the sources).  Spec section 3: a pair of a 3D point of the target and the pixel it was
detected at. -/
@[ext]
structure Correspondence (D : Type) where
  in_target : Point3d D
  in_image : Observation2d D
deriving DecidableEq

/-- Modelled from the spec: `ExtrinsicCameraOnWristParameters` is declared in
`rct_optimizations/extrinsic_camera_on_wrist.h`, which is not among the sources.  Spec section 3,
`Problem` (single camera on wrist): intrinsics, per-image wrist pose, per-image correspondence
set, initial guess for the camera-to-wrist and base-to-target transforms. -/
structure ExtrinsicCameraOnWristParameters (D : Type) where
  intr : CameraIntrinsics D
  wrist_poses : List (Pose6d D)
  image_observations : List (List (Correspondence D))
  base_to_target_guess : Pose6d D
  camera_to_wrist_guess : Pose6d D
deriving DecidableEq

/-- The single call of the cost functor inside `optimize` (lines 164-192): the `bool` returned by
`cost(camera_guess.values.data(), target_guess.values.data(), out)` and the array `out` after the
call.  The functor is instantiated at `T = double`.  `M_PI` is the constant of `<cmath>`, taken
as a parameter; `M_PI_2` is its half.  The value of the constant in the source is
`M_PI_double`, the `double` nearest to pi. -/
def optimize_evaluation {D : Type} [LinearOrderedField D] (ops : Scalar D) (M_PI : D) :
    Bool × Vec2 D :=
  let obs : Observation2d D := { x := 400, y := 400 }
  let intr : CameraIntrinsics D :=
    { cx := ((640 / 2 : ℕ) : D), cy := ((480 / 2 : ℕ) : D), fx := 550, fy := 550 }
  let wrist_pose : Pose6d D := { z := 0, x := 10, y := 0, rx := 0, ry := -M_PI / 2, rz := 0 }
  let in_target : Point3d D := ⟨⟨0, 0, 0⟩⟩
  let cost : ReprojectionCost D := ⟨obs, intr, wrist_pose, in_target⟩
  let target_guess : Pose6d D := ⟨0, 0, 0, 1, 0, 0⟩
  let camera_guess : Pose6d D := ⟨0, -(M_PI / 2), 0, 0, 0, 0⟩
  cost.operator (RingHom.id D) ops camera_guess.values target_guess.values

/-- Source `rct_optimizations::optimize` (lines 162-195): the hard-coded evaluation is performed,
its output `out` is dropped, and `return {}` yields the value-initialised result.  The argument
`params` is not read. -/
def optimize {D : Type} [LinearOrderedField D] (ops : Scalar D) (M_PI : D)
    (_params : ExtrinsicCameraOnWristParameters D) : ExtrinsicCameraOnWristResult D :=
  let _out := optimize_evaluation ops M_PI
  ExtrinsicCameraOnWristResult.value_initialized

/-! ## The contract in the words of the specification -/

/-- Componentwise sum of two triples. -/
def Vec3.add {T : Type} [Add T] (a b : Vec3 T) : Vec3 T :=
  ⟨a.x + b.x, a.y + b.y, a.z + b.z⟩

/-- Componentwise difference of two pairs. -/
def Vec2.sub {T : Type} [Sub T] (a b : Vec2 T) : Vec2 T :=
  ⟨a.x - b.x, a.y - b.y⟩

/-- Conversion `T(.)` of the three components of a triple of doubles. -/
def Vec3.map {D T : Type} (f : D → T) (a : Vec3 D) : Vec3 T :=
  ⟨f a.x, f a.y, f a.z⟩

/-- Conversion `T(.)` of the six components of a block of doubles. -/
def ParamBlock.map {D T : Type} (f : D → T) (b : ParamBlock D) : ParamBlock T :=
  ⟨f b.p0, f b.p1, f b.p2, f b.p3, f b.p4, f b.p5⟩

/-- The first three scalars of a pose: its axis-angle rotation. -/
def ParamBlock.angle_axis {T : Type} (b : ParamBlock T) : Vec3 T := ⟨b.p0, b.p1, b.p2⟩

/-- The last three scalars of a pose: its translation. -/
def ParamBlock.position {T : Type} (b : ParamBlock T) : Vec3 T := ⟨b.p3, b.p4, b.p5⟩

/-- Specification, section 4.2, `applyPose`: rotate the point by the axis-angle rotation of the
pose, then add the translation of the pose.  The pose is given by its six scalars, 3 axis-angle
components followed by 3 translation components. -/
def applyPose {D T : Type} [Field D] [LinearOrderedField T]
    (cast : D →+* T) (ops : Scalar T) (pose : ParamBlock T) (point : Vec3 T) : Vec3 T :=
  Vec3.add (AngleAxisRotatePoint cast ops pose.angle_axis point) pose.position

/-- Specification, section 4.3: the point of the target carried into the camera frame, the poses
being applied in the order target pose `B`, fixed wrist pose `W`, camera pose `C`. -/
def cameraFramePoint {D T : Type} [Field D] [LinearOrderedField T]
    (cast : D →+* T) (ops : Scalar T) (W : Pose6d D) (p : Point3d D) (C B : ParamBlock T) :
    Vec3 T :=
  applyPose cast ops C
    (applyPose cast ops (W.values.map cast) (applyPose cast ops B (p.values.map cast)))

/-- Determinant of the matrix whose rows are the three triples. -/
def Vec3.det {D : Type} [Field D] (a b c : Vec3 D) : D :=
  a.x * (b.y * c.z - b.z * c.y) - a.y * (b.x * c.z - b.z * c.x)
    + a.z * (b.x * c.y - b.y * c.x)

/-- Four points are not in one plane: the three edges from the first one are independent. -/
def NonCoplanar {D : Type} [Field D] (p0 p1 p2 p3 : Vec3 D) : Prop :=
  Vec3.det ⟨p1.x - p0.x, p1.y - p0.y, p1.z - p0.z⟩ ⟨p2.x - p0.x, p2.y - p0.y, p2.z - p0.z⟩
    ⟨p3.x - p0.x, p3.y - p0.y, p3.z - p0.z⟩ ≠ 0

/-- Every component of the pose `a` is within `tol` of the same component of `b`. -/
def Pose6d.within {D : Type} [LinearOrderedField D] (tol : D) (a b : Pose6d D) : Prop :=
  |a.rx - b.rx| ≤ tol ∧ |a.ry - b.ry| ≤ tol ∧ |a.rz - b.rz| ≤ tol
    ∧ |a.x - b.x| ≤ tol ∧ |a.y - b.y| ≤ tol ∧ |a.z - b.z| ≤ tol

/-- Specification, section 8, the well-posed synthetic problem of the convergence property, for
ground-truth poses `C` (camera to wrist) and `B` (base to target):
one wrist pose per image; every observed pixel is the exact projection, at the truth, of its
target point (section 4.3 composition, section 4.1 projection); every image shows 4 points that
are not coplanar; there are more observations than the 12 free parameters;
both guesses are within `tol` of the truth. -/
def WellPosedSynthetic {D : Type} [LinearOrderedField D] (ops : Scalar D) (C B : Pose6d D)
    (tol : D) (params : ExtrinsicCameraOnWristParameters D) : Prop :=
  params.wrist_poses.length = params.image_observations.length
  ∧ (∀ Wcs ∈ params.wrist_poses.zip params.image_observations, ∀ c ∈ Wcs.2,
      (⟨c.in_image.x, c.in_image.y⟩ : Vec2 D)
        = projectPoint (RingHom.id D) ops params.intr
            (cameraFramePoint (RingHom.id D) ops Wcs.1 c.in_target C.values B.values))
  ∧ (∀ cs ∈ params.image_observations, ∃ c0 ∈ cs, ∃ c1 ∈ cs, ∃ c2 ∈ cs, ∃ c3 ∈ cs,
      NonCoplanar c0.in_target.values c1.in_target.values c2.in_target.values
        c3.in_target.values)
  ∧ 12 < (params.image_observations.map List.length).sum
  ∧ Pose6d.within tol params.camera_to_wrist_guess C
  ∧ Pose6d.within tol params.base_to_target_guess B

/-- A numeric type for evaluation on concrete inputs: the rationals, with the field quotient as
division.  The inputs evaluated with it have rotation vectors of squared norm at most `epsilon`,
for which `sqrt`, `sin` and `cos` are never called, or their rotated value is dropped. -/
def ratScalar : Scalar ℚ := Scalar.ofField (fun _ => 0) (fun _ => 0) (fun _ => 1)

/-- Ground truth of the synthetic problem: the camera-to-wrist pose. -/
def syntheticTruthCamera : Pose6d ℚ := ⟨0, 0, 0, 0, 0, 1⟩

/-- Ground truth of the synthetic problem: the base-to-target pose. -/
def syntheticTruthTarget : Pose6d ℚ := ⟨0, 0, 0, 1, 0, 0⟩

/-- A synthetic calibration problem: 4 images, taken at 4 wrist poses, of the 4 target points
`(0,0,0)`, `(1,0,0)`, `(0,1,0)`, `(0,0,1)`; 16 exact pixel observations for the intrinsics
`fx = fy = 550`, `cx = 320`, `cy = 240`; guesses off the truth by one thousandth. -/
def syntheticProblem : ExtrinsicCameraOnWristParameters ℚ :=
  { intr := ⟨550, 550, 320, 240⟩
    wrist_poses := [⟨0, 0, 0, 0, 0, 4⟩, ⟨0, 0, 0, 1, 0, 4⟩, ⟨0, 0, 0, 0, 1, 4⟩, ⟨0, 0, 0, 0, 0, 9⟩]
    image_observations :=
      [[⟨⟨⟨0, 0, 0⟩⟩, ⟨430, 240⟩⟩, ⟨⟨⟨1, 0, 0⟩⟩, ⟨540, 240⟩⟩, ⟨⟨⟨0, 1, 0⟩⟩, ⟨430, 350⟩⟩,
          ⟨⟨⟨0, 0, 1⟩⟩, ⟨1235 / 3, 240⟩⟩],
        [⟨⟨⟨0, 0, 0⟩⟩, ⟨540, 240⟩⟩, ⟨⟨⟨1, 0, 0⟩⟩, ⟨650, 240⟩⟩, ⟨⟨⟨0, 1, 0⟩⟩, ⟨540, 350⟩⟩,
          ⟨⟨⟨0, 0, 1⟩⟩, ⟨1510 / 3, 240⟩⟩],
        [⟨⟨⟨0, 0, 0⟩⟩, ⟨430, 350⟩⟩, ⟨⟨⟨1, 0, 0⟩⟩, ⟨540, 350⟩⟩, ⟨⟨⟨0, 1, 0⟩⟩, ⟨430, 460⟩⟩,
          ⟨⟨⟨0, 0, 1⟩⟩, ⟨1235 / 3, 995 / 3⟩⟩],
        [⟨⟨⟨0, 0, 0⟩⟩, ⟨375, 240⟩⟩, ⟨⟨⟨1, 0, 0⟩⟩, ⟨430, 240⟩⟩, ⟨⟨⟨0, 1, 0⟩⟩, ⟨375, 295⟩⟩,
          ⟨⟨⟨0, 0, 1⟩⟩, ⟨370, 240⟩⟩]]
    base_to_target_guess := ⟨0, -1 / 1000, 0, 1001 / 1000, 0, 0⟩
    camera_to_wrist_guess := ⟨1 / 1000, 0, 0, 0, 0, 1001 / 1000⟩ }

/-- A problem whose parallel per-image vectors have different lengths: 2 wrist poses, 1 image. -/
def mismatchedProblem : ExtrinsicCameraOnWristParameters ℚ :=
  { intr := ⟨550, 550, 320, 240⟩
    wrist_poses := [⟨0, 0, 0, 0, 0, 4⟩, ⟨0, 0, 0, 1, 0, 4⟩]
    image_observations := [[⟨⟨⟨0, 0, 0⟩⟩, ⟨430, 240⟩⟩]]
    base_to_target_guess := ⟨0, 0, 0, 1, 0, 0⟩
    camera_to_wrist_guess := ⟨0, 0, 0, 0, 0, 1⟩ }

/-- The `double` nearest to pi, the value of `M_PI`, as a rational number. -/
def M_PI_double : ℚ := 884279719003555 / 281474976710656

/-! ## The instantiation at `T = double`: binary64 arithmetic

The functor is only ever called with `T = double` (line 192).  The definitions below repeat the
functions of the residual path with IEEE 754 binary64 arithmetic in place of exact arithmetic:
every operation is the exact rational operation followed by rounding to nearest, ties to even,
to 53 significant bits, with gradual underflow below `2 ^ (-1022)` and overflow from
`2 ^ 1024`.  No fused multiply-add and no extended intermediate precision is assumed. -/

/-- A binary64 value: a finite number, given by its exact rational value (both zeros are the
rational 0), or `nonfinite`, which stands for an infinity, a NaN, or a value computed from one.
The model follows a computation only as long as it stays finite: an operation with a
`nonfinite` operand, and a division by zero, are `nonfinite`. -/
inductive F64 where
  | finite (q : ℚ)
  | nonfinite
deriving DecidableEq

/-- Nearest integer, ties to the even one. -/
def F64.roundHalfEven (x : ℚ) : ℤ :=
  let f := ⌊x⌋
  if x - f < 1 / 2 then f
  else if 1 / 2 < x - f then f + 1
  else if f % 2 = 0 then f
  else f + 1

/-- Exponent of the unit in the last place of the binary64 numbers around `q`: 52 below the
binary exponent of `q`, and never below `-1074` (subnormal range). -/
def F64.ulpExponent (q : ℚ) : ℤ := max (Int.log 2 |q| - 52) (-1074)

/-- Rounding of an exact result to binary64: the nearest multiple of the unit in the last place,
ties to even; a rounded magnitude of `2 ^ 1024` or more overflows. -/
def F64.round (q : ℚ) : F64 :=
  let r : ℚ := F64.roundHalfEven (q / 2 ^ F64.ulpExponent q) * 2 ^ F64.ulpExponent q
  if |r| < 2 ^ (1024 : ℕ) then F64.finite r else F64.nonfinite

instance : Add F64 where
  add a b := match a, b with
    | F64.finite x, F64.finite y => F64.round (x + y)
    | _, _ => F64.nonfinite

instance : Sub F64 where
  sub a b := match a, b with
    | F64.finite x, F64.finite y => F64.round (x - y)
    | _, _ => F64.nonfinite

instance : Mul F64 where
  mul a b := match a, b with
    | F64.finite x, F64.finite y => F64.round (x * y)
    | _, _ => F64.nonfinite

instance : Div F64 where
  div a b := match a, b with
    | F64.finite x, F64.finite y => if y = 0 then F64.nonfinite else F64.round (x / y)
    | _, _ => F64.nonfinite

/-- The functions `sqrt`, `sin`, `cos` of the C library on `double`, not among the sources. -/
structure Libm where
  sqrt : F64 → F64
  sin : F64 → F64
  cos : F64 → F64

namespace binary64

/-- Modelled from the spec: `ceres::AngleAxisRotatePoint` at `T = double`; the same algorithm as
the exact-arithmetic model above, every operation rounded. -/
def AngleAxisRotatePoint (libm : Libm) (angle_axis pt : Vec3 F64) : Vec3 F64 :=
  let theta2 := angle_axis.x * angle_axis.x + angle_axis.y * angle_axis.y
    + angle_axis.z * angle_axis.z
  match theta2 with
  | F64.nonfinite => ⟨F64.nonfinite, F64.nonfinite, F64.nonfinite⟩
  | F64.finite t2 =>
    if t2 > 1 / 2 ^ 52 then
      let theta := libm.sqrt theta2
      let costheta := libm.cos theta
      let sintheta := libm.sin theta
      let theta_inverse := F64.finite 1 / theta
      let w : Vec3 F64 :=
        ⟨angle_axis.x * theta_inverse, angle_axis.y * theta_inverse,
          angle_axis.z * theta_inverse⟩
      let w_cross_pt : Vec3 F64 :=
        ⟨w.y * pt.z - w.z * pt.y, w.z * pt.x - w.x * pt.z, w.x * pt.y - w.y * pt.x⟩
      let tmp := (w.x * pt.x + w.y * pt.y + w.z * pt.z) * (F64.finite 1 - costheta)
      ⟨pt.x * costheta + w_cross_pt.x * sintheta + w.x * tmp,
       pt.y * costheta + w_cross_pt.y * sintheta + w.y * tmp,
       pt.z * costheta + w_cross_pt.z * sintheta + w.z * tmp⟩
    else
      let w_cross_pt : Vec3 F64 :=
        ⟨angle_axis.y * pt.z - angle_axis.z * pt.y,
         angle_axis.z * pt.x - angle_axis.x * pt.z,
         angle_axis.x * pt.y - angle_axis.y * pt.x⟩
      ⟨pt.x + w_cross_pt.x, pt.y + w_cross_pt.y, pt.z + w_cross_pt.z⟩

/-- Source `poseTransformPoint` (lines 28-42) at `T = double`. -/
def poseTransformPoint (libm : Libm) (pose : Pose6d F64) (point : Vec3 F64) : Vec3 F64 :=
  let angle_axis : Vec3 F64 := ⟨pose.rx, pose.ry, pose.rz⟩
  let t_point := AngleAxisRotatePoint libm angle_axis point
  ⟨t_point.x + pose.x, t_point.y + pose.y, t_point.z + pose.z⟩

/-- Source `transformPoint` (lines 44-52) at `T = double`. -/
def transformPoint (libm : Libm) (angle_axis tx point : Vec3 F64) : Vec3 F64 :=
  let t_point := AngleAxisRotatePoint libm angle_axis point
  ⟨t_point.x + tx.x, t_point.y + tx.y, t_point.z + tx.z⟩

/-- Source `projectPoint`, lines 83-99, at `T = double`: the pair `(xp, yp)`. -/
def imagePlanePoint (point : Vec3 F64) : F64 × F64 :=
  let xp1 := point.x
  let yp1 := point.y
  let zp1 := point.z
  if zp1 = F64.finite 0 then (xp1, yp1)
  else (xp1 / zp1, yp1 / zp1)

/-- Source `projectPoint` (lines 80-104) at `T = double`. -/
def projectPoint (intr : CameraIntrinsics F64) (point : Vec3 F64) : Vec2 F64 :=
  let xpyp := imagePlanePoint point
  ⟨intr.fx * xpyp.1 + intr.cx, intr.fy * xpyp.2 + intr.cy⟩

/-- Source `ReprojectionCost::operator()`, lines 126-142, at `T = double`: the array
`camera_point`. -/
def camera_point (libm : Libm) (self : ReprojectionCost F64)
    (pose_camera_to_wrist pose_base_to_target : ParamBlock F64) : Vec3 F64 :=
  let camera_angle_axis : Vec3 F64 :=
    ⟨pose_camera_to_wrist.p0, pose_camera_to_wrist.p1, pose_camera_to_wrist.p2⟩
  let camera_position : Vec3 F64 :=
    ⟨pose_camera_to_wrist.p3, pose_camera_to_wrist.p4, pose_camera_to_wrist.p5⟩
  let target_angle_axis : Vec3 F64 :=
    ⟨pose_base_to_target.p0, pose_base_to_target.p1, pose_base_to_target.p2⟩
  let target_position : Vec3 F64 :=
    ⟨pose_base_to_target.p3, pose_base_to_target.p4, pose_base_to_target.p5⟩
  let target_pt : Vec3 F64 :=
    ⟨self.target_pt_.values.x, self.target_pt_.values.y, self.target_pt_.values.z⟩
  let world_point := transformPoint libm target_angle_axis target_position target_pt
  let link_point := poseTransformPoint libm self.wrist_pose_ world_point
  transformPoint libm camera_angle_axis camera_position link_point

/-- Source `ReprojectionCost::operator()` (lines 123-151) at `T = double`: the returned `bool`
and the array `residual` after the call. -/
def operator (libm : Libm) (self : ReprojectionCost F64)
    (pose_camera_to_wrist pose_base_to_target : ParamBlock F64) : Bool × Vec2 F64 :=
  let camera_point := camera_point libm self pose_camera_to_wrist pose_base_to_target
  let xy_image := projectPoint self.intr_ camera_point
  (true, ⟨xy_image.x - self.obs_.x, xy_image.y - self.obs_.y⟩)

end binary64

/-! ## Auxiliary facts -/

/-- The threshold `T(epsilon)` is positive, so a zero squared norm is not above it. -/
theorem epsilon_not_below_zero {D T : Type} [Field D] [LinearOrderedField T] (cast : D →+* T) :
    ¬ ((0 : T) > cast numeric_limits_epsilon) := by
  have h : cast (numeric_limits_epsilon : D) = 1 / 2 ^ 52 := by
    simp [numeric_limits_epsilon, map_pow, map_ofNat]
  rw [h]
  have hpos : (0 : T) < 1 / 2 ^ 52 := by positivity
  exact not_lt.mpr hpos.le

/-- The zero rotation vector takes the first-order branch and leaves the point unchanged. -/
theorem AngleAxisRotatePoint_zero {D T : Type} [Field D] [LinearOrderedField T]
    (cast : D →+* T) (ops : Scalar T) (p : Vec3 T) :
    AngleAxisRotatePoint cast ops ⟨0, 0, 0⟩ p = p := by
  have h := epsilon_not_below_zero (D := D) (T := T) cast
  simp only [gt_iff_lt] at h
  simp [AngleAxisRotatePoint, h]

/-- A pose without rotation translates the point. -/
theorem applyPose_zero_rotation {D T : Type} [Field D] [LinearOrderedField T]
    (cast : D →+* T) (ops : Scalar T) (a b c : T) (p : Vec3 T) :
    applyPose cast ops ⟨0, 0, 0, a, b, c⟩ p = ⟨p.x + a, p.y + b, p.z + c⟩ := by
  simp [applyPose, ParamBlock.angle_axis, ParamBlock.position, AngleAxisRotatePoint_zero,
    Vec3.add]

/-- Projection of a point of nonzero depth: the division is the field quotient. -/
theorem projectPoint_of_ne_zero {D T : Type} [Field D] [LinearOrderedField T]
    (cast : D →+* T) (ops : Scalar T) (intr : CameraIntrinsics D) (q : Vec3 T) (hz : q.z ≠ 0) :
    projectPoint cast ops intr q
      = ⟨cast intr.fx * (q.x / q.z) + cast intr.cx, cast intr.fy * (q.y / q.z) + cast intr.cy⟩ := by
  simp [projectPoint, hz, ops.div_spec _ _ hz]

/-- Projection of a point of zero depth: the guarded branch, no quotient. -/
theorem projectPoint_of_eq_zero {D T : Type} [Field D] [LinearOrderedField T]
    (cast : D →+* T) (ops : Scalar T) (intr : CameraIntrinsics D) (q : Vec3 T) (hz : q.z = 0) :
    projectPoint cast ops intr q
      = ⟨cast intr.fx * q.x + cast intr.cx, cast intr.fy * q.y + cast intr.cy⟩ := by
  simp [projectPoint, hz]

/-- The residual array written by the functor, in terms of the composition of section 4.3. -/
theorem operator_snd {D T : Type} [Field D] [LinearOrderedField T]
    (cast : D →+* T) (ops : Scalar T) (self : ReprojectionCost D) (C B : ParamBlock T) :
    (self.operator cast ops C B).2
      = Vec2.sub (projectPoint cast ops self.intr_
          (cameraFramePoint cast ops self.wrist_pose_ self.target_pt_ C B))
          ⟨cast self.obs_.x, cast self.obs_.y⟩ := rfl

/-- The synthetic problem meets every condition of the well-posed synthetic problem, whatever
the scalar operations do outside the field axioms. -/
theorem syntheticProblem_wellPosed (ops : Scalar ℚ) :
    WellPosedSynthetic ops syntheticTruthCamera syntheticTruthTarget (1 / 1000)
      syntheticProblem := by
  refine ⟨rfl, ?_, ?_, ?_, ?_, ?_⟩
  · norm_num [syntheticProblem, syntheticTruthCamera, syntheticTruthTarget, cameraFramePoint,
      Pose6d.values, ParamBlock.map, Vec3.map, applyPose_zero_rotation, projectPoint_of_ne_zero]
  · intro cs hcs
    simp only [syntheticProblem, List.mem_cons, List.mem_singleton, List.not_mem_nil,
      or_false] at hcs
    rcases hcs with h | h | h | h <;> subst h <;>
      exact ⟨_, List.mem_cons_self _ _, _, List.mem_cons_of_mem _ (List.mem_cons_self _ _),
        _, List.mem_cons_of_mem _ (List.mem_cons_of_mem _ (List.mem_cons_self _ _)),
        _, List.mem_cons_of_mem _ (List.mem_cons_of_mem _ (List.mem_cons_of_mem _
          (List.mem_cons_self _ _))), by norm_num [NonCoplanar, Vec3.det]⟩
  · norm_num [syntheticProblem]
  · norm_num [Pose6d.within, syntheticProblem, syntheticTruthCamera, abs_le]
  · norm_num [Pose6d.within, syntheticProblem, syntheticTruthTarget, abs_le]

/-- Exact arithmetic: scaling a point of nonzero depth by `k ≠ 0` leaves its pixel unchanged,
because `(k * x) / (k * z) = x / z` in a field. -/
theorem projectPoint_scale_invariant {D T : Type} [Field D] [LinearOrderedField T]
    (cast : D →+* T) (ops : Scalar T) (intr : CameraIntrinsics D) (x y z k : T)
    (hz : z ≠ 0) (hk : k ≠ 0) :
    projectPoint cast ops intr ⟨k * x, k * y, k * z⟩ = projectPoint cast ops intr ⟨x, y, z⟩ := by
  have hkz : k * z ≠ 0 := mul_ne_zero hk hz
  rw [projectPoint_of_ne_zero cast ops intr _ hkz, projectPoint_of_ne_zero cast ops intr _ hz]
  simp only [mul_div_mul_left _ _ hk]

/-- Exact arithmetic: a common shift of the principal point and of the observation cancels in
the residual, because `a + d - (b + d) = a - b` in a field. -/
theorem operator_principal_point_shift {D T : Type} [Field D] [LinearOrderedField T]
    (cast : D →+* T) (ops : Scalar T) (obs : Observation2d D) (intr : CameraIntrinsics D)
    (W : Pose6d D) (p : Point3d D) (C B : ParamBlock T) (du dv : D) :
    (ReprojectionCost.mk ⟨obs.x + du, obs.y + dv⟩ ⟨intr.fx, intr.fy, intr.cx + du, intr.cy + dv⟩
        W p).operator cast ops C B
      = (ReprojectionCost.mk obs intr W p).operator cast ops C B := by
  refine Prod.ext rfl ?_
  rw [operator_snd, operator_snd]
  ext
  · simp only [Vec2.sub, projectPoint, map_add]
    ring
  · simp only [Vec2.sub, projectPoint, map_add]
    ring

/-! ## Facts on binary64 rounding -/

/-- An integer within half a unit of `x` is the rounding of `x`. -/
theorem F64.roundHalfEven_eq (x : ℚ) (m : ℤ) (hl : (m : ℚ) - 1 / 2 < x) (hu : x < m + 1 / 2) :
    F64.roundHalfEven x = m := by
  have hfl : (⌊x⌋ : ℚ) ≤ x := Int.floor_le x
  have hfu : x < ⌊x⌋ + 1 := Int.lt_floor_add_one x
  have hcases : m = ⌊x⌋ ∨ m = ⌊x⌋ + 1 := by
    have a1 : ((⌊x⌋ : ℤ) : ℚ) < ((m + 1 : ℤ) : ℚ) := by push_cast; linarith
    have a2 : ((m - 2 : ℤ) : ℚ) < ((⌊x⌋ : ℤ) : ℚ) := by push_cast; linarith
    have a1' : ⌊x⌋ < m + 1 := by exact_mod_cast a1
    have a2' : m - 2 < ⌊x⌋ := by exact_mod_cast a2
    omega
  unfold F64.roundHalfEven
  rcases hcases with hc | hc
  · subst hc
    have hlt : x - (⌊x⌋ : ℚ) < 1 / 2 := by linarith
    simp only [hlt, if_true]
  · subst hc
    have hx : ((⌊x⌋ + 1 : ℤ) : ℚ) = (⌊x⌋ : ℚ) + 1 := by push_cast; ring
    rw [hx] at hl
    have n1 : ¬ (x - (⌊x⌋ : ℚ) < 1 / 2) := by linarith
    have n2 : 1 / 2 < x - (⌊x⌋ : ℚ) := by linarith
    simp only [n1, n2, if_false, if_true]

/-- The unit in the last place of a number of binary exponent `e`. -/
theorem F64.ulpExponent_eq (q : ℚ) (e : ℤ) (h1 : (2 : ℚ) ^ e ≤ |q|) (h2 : |q| < 2 ^ (e + 1)) :
    F64.ulpExponent q = max (e - 52) (-1074) := by
  have hpos : 0 < |q| := lt_of_lt_of_le (zpow_pos (by norm_num) e) h1
  have hlog : Int.log 2 |q| = e := by
    have a : e ≤ Int.log 2 |q| := (Int.zpow_le_iff_le_log (by norm_num)
        hpos).mp (by exact_mod_cast h1)
    have b : Int.log 2 |q| < e + 1 := (Int.lt_zpow_iff_log_lt (by norm_num)
        hpos).mp (by exact_mod_cast h2)
    omega
  rw [F64.ulpExponent, hlog]

/-- Evaluation of a rounding: a positive `q` of binary exponent `e` rounds to `m * 2 ^ t`, where
`t` is the exponent of its unit in the last place and `m` is the integer within half a unit of
`q / 2 ^ t`, provided the result is below `2 ^ 1024`. -/
theorem F64.round_eq (q : ℚ) (e t m : ℤ) (h1 : (2 : ℚ) ^ e ≤ q) (h2 : q < 2 ^ (e + 1))
    (ht : t = max (e - 52) (-1074)) (hl : (m : ℚ) - 1 / 2 < q / 2 ^ t)
    (hu : q / 2 ^ t < m + 1 / 2) (hfin : (m : ℚ) * 2 ^ t < 2 ^ (1024 : ℕ)) :
    F64.round q = F64.finite (m * 2 ^ t) := by
  have hq : 0 < q := lt_of_lt_of_le (zpow_pos (by norm_num) e) h1
  have habs : |q| = q := abs_of_pos hq
  have hu2 := F64.ulpExponent_eq q e (by rw [habs]; exact h1) (by rw [habs]; exact h2)
  rw [← ht] at hu2
  have hm0 : (0 : ℚ) ≤ m := by
    have hpos : (0 : ℚ) < q / 2 ^ t := div_pos hq (zpow_pos (by norm_num) t)
    have hm1 : (-1 : ℚ) < m := by linarith
    have hm2 : (-1 : ℤ) < m := by exact_mod_cast hm1
    have hm3 : (0 : ℤ) ≤ m := by omega
    exact_mod_cast hm3
  have hr : |(m : ℚ) * 2 ^ t| = m * 2 ^ t :=
    abs_of_nonneg (mul_nonneg hm0 (zpow_nonneg (by norm_num) t))
  simp only [F64.round, hu2, F64.roundHalfEven_eq _ m hl hu, hr, hfin, if_true]

/-- Zero rounds to zero. -/
theorem F64.round_zero : F64.round 0 = F64.finite 0 := by
  simp [F64.round, F64.roundHalfEven]

/-- Sum of two finite values. -/
theorem F64.finite_add (x y : ℚ) : F64.finite x + F64.finite y = F64.round (x + y) := rfl

/-- Difference of two finite values. -/
theorem F64.finite_sub (x y : ℚ) : F64.finite x - F64.finite y = F64.round (x - y) := rfl

/-- Product of two finite values. -/
theorem F64.finite_mul (x y : ℚ) : F64.finite x * F64.finite y = F64.round (x * y) := rfl

/-- Quotient of two finite values, the divisor not zero. -/
theorem F64.finite_div (x y : ℚ) (hy : y ≠ 0) :
    F64.finite x / F64.finite y = F64.round (x / y) := by
  show (if y = 0 then F64.nonfinite else F64.round (x / y)) = _
  rw [if_neg hy]

/-- At `T = double` the zero rotation vector leaves a point unchanged. -/
theorem binary64.rotate_zero_vector (libm : Libm) (x y z : ℚ)
    (hx : F64.round x = F64.finite x) (hy : F64.round y = F64.finite y)
    (hz : F64.round z = F64.finite z) :
    binary64.AngleAxisRotatePoint libm ⟨F64.finite 0, F64.finite 0, F64.finite 0⟩
      ⟨F64.finite x, F64.finite y, F64.finite z⟩
      = ⟨F64.finite x, F64.finite y, F64.finite z⟩ := by
  have hle : ¬ ((0 : ℚ) > 1 / 2 ^ 52) := by norm_num
  simp only [binary64.AngleAxisRotatePoint, F64.finite_mul, F64.finite_add, F64.finite_sub,
    mul_zero, zero_mul, add_zero, sub_self, F64.round_zero, hle, if_false, hx, hy, hz]

/-- At `T = double`, with all three poses zero, the camera-frame point is the target point. -/
theorem binary64.camera_point_zero_poses (libm : Libm) (obs : Observation2d F64)
    (intr : CameraIntrinsics F64) (x y z : ℚ)
    (hx : F64.round x = F64.finite x) (hy : F64.round y = F64.finite y)
    (hz : F64.round z = F64.finite z) :
    binary64.camera_point libm
      ⟨obs, intr, ⟨F64.finite 0, F64.finite 0, F64.finite 0, F64.finite 0, F64.finite 0,
        F64.finite 0⟩, ⟨⟨F64.finite x, F64.finite y, F64.finite z⟩⟩⟩
      ⟨F64.finite 0, F64.finite 0, F64.finite 0, F64.finite 0, F64.finite 0, F64.finite 0⟩
      ⟨F64.finite 0, F64.finite 0, F64.finite 0, F64.finite 0, F64.finite 0, F64.finite 0⟩
      = ⟨F64.finite x, F64.finite y, F64.finite z⟩ := by
  simp only [binary64.camera_point, binary64.transformPoint, binary64.poseTransformPoint,
    binary64.rotate_zero_vector libm x y z hx hy hz, F64.finite_add, add_zero, hx, hy, hz]

/-- Unfolding of `binary64.projectPoint` on explicit intrinsics. -/
theorem binary64.projectPoint_mk (fx fy cx cy : F64) (q : Vec3 F64) :
    binary64.projectPoint ⟨fx, fy, cx, cy⟩ q
      = ⟨fx * (binary64.imagePlanePoint q).1 + cx, fy * (binary64.imagePlanePoint q).2 + cy⟩ :=
  rfl

/-- Unfolding of `binary64.operator` on an explicit functor. -/
theorem binary64.operator_mk (libm : Libm) (ox oy fx fy cx cy : F64) (W : Pose6d F64)
    (p : Point3d F64) (C B : ParamBlock F64) :
    binary64.operator libm ⟨⟨ox, oy⟩, ⟨fx, fy, cx, cy⟩, W, p⟩ C B
      = (true,
          ⟨fx * (binary64.imagePlanePoint
              (binary64.camera_point libm ⟨⟨ox, oy⟩, ⟨fx, fy, cx, cy⟩, W, p⟩ C B)).1 + cx - ox,
           fy * (binary64.imagePlanePoint
              (binary64.camera_point libm ⟨⟨ox, oy⟩, ⟨fx, fy, cx, cy⟩, W, p⟩ C B)).2 + cy - oy⟩) :=
  rfl

/-- The pair `(xp, yp)` of a point of nonzero depth: the two rounded quotients. -/
theorem binary64.imagePlanePoint_of_ne (x y z : ℚ) (hz : z ≠ 0) :
    (binary64.imagePlanePoint ⟨F64.finite x, F64.finite y, F64.finite z⟩).1 = F64.round (x / z)
      ∧ (binary64.imagePlanePoint ⟨F64.finite x, F64.finite y, F64.finite z⟩).2
          = F64.round (y / z) := by
  simp only [binary64.imagePlanePoint, F64.finite.injEq, hz, if_false, F64.finite_div _ _ hz,
    and_self]

/-- The pair `(xp, yp)` of a point of zero depth: the guarded branch. -/
theorem binary64.imagePlanePoint_of_zero (x y : F64) :
    (binary64.imagePlanePoint ⟨x, y, F64.finite 0⟩).1 = x
      ∧ (binary64.imagePlanePoint ⟨x, y, F64.finite 0⟩).2 = y := by
  simp only [binary64.imagePlanePoint, if_true, and_self]

/-- The camera-frame point depends on the functor only through the wrist pose and the target
point. -/
theorem binary64.camera_point_congr (libm : Libm) (o o2 : Observation2d F64)
    (i i2 : CameraIntrinsics F64) (W : Pose6d F64) (p : Point3d F64) (C B : ParamBlock F64) :
    binary64.camera_point libm ⟨o, i, W, p⟩ C B = binary64.camera_point libm ⟨o2, i2, W, p⟩ C B :=
  rfl

/-! ## Facts on the evaluation hard-coded in `optimize` -/

/-- C1: for every intrinsics and every camera-frame point `(x, y, z)` with `z ≠ 0`, `projectPoint`
returns the pixel `(fx * (x / z) + cx, fy * (y / z) + cy)`; in particular with
`fx = fy = 550`, `cx = 320`, `cy = 240` the point `(0, 0, 1)` projects to exactly `(320, 240)`. -/
theorem projectPoint_nonzero_depth {D T : Type} [Field D] [LinearOrderedField T]
    (cast : D →+* T) (ops : Scalar T) (intr : CameraIntrinsics D) (x y z : T) (hz : z ≠ 0) :
    projectPoint cast ops intr ⟨x, y, z⟩
        = ⟨cast intr.fx * (x / z) + cast intr.cx, cast intr.fy * (y / z) + cast intr.cy⟩
      ∧ projectPoint cast ops ⟨550, 550, 320, 240⟩ ⟨0, 0, 1⟩ = ⟨320, 240⟩ := by
  constructor
  · simp [projectPoint, hz, ops.div_spec _ _ hz]
  · simp [projectPoint, ops.div_spec, map_ofNat]

/-- Evaluation of C1 on the rationals: with `fx = fy = 550`, `cx = 320`, `cy = 240` the point
`(2, 3, 4)` projects to `(595, 1305 / 2)`. -/
theorem projectPoint_nonzero_depth_witness :
    (4 : ℚ) ≠ 0 ∧
      projectPoint (RingHom.id ℚ) ratScalar ⟨550, 550, 320, 240⟩ ⟨2, 3, 4⟩ = ⟨595, 1305 / 2⟩ := by
  refine ⟨by norm_num, ?_⟩
  have h := (projectPoint_nonzero_depth (RingHom.id ℚ) ratScalar ⟨550, 550, 320, 240⟩ 2 3 4
    (by norm_num)).1
  rw [h]
  norm_num

/-- C2: for every intrinsics and every `x`, `y`, `projectPoint` applied to the zero-depth point
`(x, y, 0)` returns exactly `(fx * x + cx, fy * y + cy)`, and it performs no division: the result
is the same for every behaviour `ops2` of the division operator (and of `sqrt`, `sin`, `cos`),
which is unconstrained for a zero divisor. -/
theorem projectPoint_zero_depth {D T : Type} [Field D] [LinearOrderedField T]
    (cast : D →+* T) (ops : Scalar T) (intr : CameraIntrinsics D) (x y : T) :
    projectPoint cast ops intr ⟨x, y, 0⟩
        = ⟨cast intr.fx * x + cast intr.cx, cast intr.fy * y + cast intr.cy⟩
      ∧ ∀ ops2 : Scalar T,
          projectPoint cast ops2 intr ⟨x, y, 0⟩ = projectPoint cast ops intr ⟨x, y, 0⟩ := by
  constructor
  · simp [projectPoint]
  · intro ops2
    simp [projectPoint]

/-! ## The residual functor -/

/-- C3: for every `ReprojectionCost` (observation, intrinsics, fixed wrist pose `W`, target point
`p`) and every pair of 6-parameter blocks `C` and `B`, `operator()` writes
`residual = projectPoint(intr, q) - (obs.x, obs.y)` with
`q = applyPose(C, applyPose(W, applyPose(B, p)))`: target pose first, then the wrist pose, then the
camera pose, each block read as 3 axis-angle components followed by 3 translation components. -/
theorem operator_residual {D T : Type} [Field D] [LinearOrderedField T]
    (cast : D →+* T) (ops : Scalar T) (obs : Observation2d D) (intr : CameraIntrinsics D)
    (W : Pose6d D) (p : Point3d D) (C B : ParamBlock T) :
    ((ReprojectionCost.mk obs intr W p).operator cast ops C B).2
      = Vec2.sub
          (projectPoint cast ops intr
            (applyPose cast ops C
              (applyPose cast ops (W.values.map cast)
                (applyPose cast ops B (p.values.map cast)))))
          ⟨cast obs.x, cast obs.y⟩ :=
  operator_snd cast ops (ReprojectionCost.mk obs intr W p) C B

/-- C4: residual at truth is zero.  If the observation stored in the `ReprojectionCost` is the
pixel `projectPoint(intr, applyPose(C, applyPose(W, applyPose(B, p))))` synthesised from the
parameters `C` and `B`, then evaluating the functor at `(C, B)` yields the residual `(0, 0)`. -/
theorem residual_at_truth_zero {D T : Type} [Field D] [LinearOrderedField T]
    (cast : D →+* T) (ops : Scalar T) (obs : Observation2d D) (intr : CameraIntrinsics D)
    (W : Pose6d D) (p : Point3d D) (C B : ParamBlock T)
    (hobs : (⟨cast obs.x, cast obs.y⟩ : Vec2 T)
      = projectPoint cast ops intr (cameraFramePoint cast ops W p C B)) :
    ((ReprojectionCost.mk obs intr W p).operator cast ops C B).2 = ⟨0, 0⟩ := by
  rw [operator_snd cast ops (ReprojectionCost.mk obs intr W p) C B]
  simp only [← hobs, Vec2.sub, sub_self]

/-- Evaluation of C4 on the rationals: the target point `(1, 1, 0)` seen through the target pose
with translation `(1, 0, 0)`, the wrist pose with translation `(0, 0, 4)` and the camera pose with
translation `(0, 1, 0)` is observed at `(595, 515)`, and the residual there is `(0, 0)`. -/
theorem residual_at_truth_zero_witness :
    (⟨(RingHom.id ℚ) 595, (RingHom.id ℚ) 515⟩ : Vec2 ℚ)
        = projectPoint (RingHom.id ℚ) ratScalar ⟨550, 550, 320, 240⟩
            (cameraFramePoint (RingHom.id ℚ) ratScalar ⟨0, 0, 0, 0, 0, 4⟩ ⟨⟨1, 1, 0⟩⟩
              ⟨0, 0, 0, 0, 1, 0⟩ ⟨0, 0, 0, 1, 0, 0⟩)
      ∧ ((ReprojectionCost.mk ⟨595, 515⟩ ⟨550, 550, 320, 240⟩ ⟨0, 0, 0, 0, 0, 4⟩
            ⟨⟨1, 1, 0⟩⟩).operator (RingHom.id ℚ) ratScalar
            ⟨0, 0, 0, 0, 1, 0⟩ ⟨0, 0, 0, 1, 0, 0⟩).2 = ⟨0, 0⟩ := by
  have hobs : (⟨(RingHom.id ℚ) 595, (RingHom.id ℚ) 515⟩ : Vec2 ℚ)
        = projectPoint (RingHom.id ℚ) ratScalar ⟨550, 550, 320, 240⟩
            (cameraFramePoint (RingHom.id ℚ) ratScalar ⟨0, 0, 0, 0, 0, 4⟩ ⟨⟨1, 1, 0⟩⟩
              ⟨0, 0, 0, 0, 1, 0⟩ ⟨0, 0, 0, 1, 0, 0⟩) := by
    norm_num [cameraFramePoint, Pose6d.values, ParamBlock.map, Vec3.map,
      applyPose_zero_rotation, projectPoint_of_ne_zero]
  exact ⟨hobs, residual_at_truth_zero (RingHom.id ℚ) ratScalar ⟨595, 515⟩ ⟨550, 550, 320, 240⟩
    ⟨0, 0, 0, 0, 0, 4⟩ ⟨⟨1, 1, 0⟩⟩ ⟨0, 0, 0, 0, 1, 0⟩ ⟨0, 0, 0, 1, 0, 0⟩ hobs⟩

/-- C7: degenerate geometry is never propagated as an error.  For every `ReprojectionCost` and
every parameter blocks `C` and `B`, `operator()` returns `true`; and when the transformed point
`q` has camera-frame depth `q.z = 0`, the residual written is the defined value
`(fx * q.x + cx - obs.x, fy * q.y + cy - obs.y)`. -/
theorem operator_returns_true {D T : Type} [Field D] [LinearOrderedField T]
    (cast : D →+* T) (ops : Scalar T) (self : ReprojectionCost D) (C B : ParamBlock T) :
    (self.operator cast ops C B).1 = true
      ∧ ((cameraFramePoint cast ops self.wrist_pose_ self.target_pt_ C B).z = 0 →
          (self.operator cast ops C B).2
            = ⟨cast self.intr_.fx * (cameraFramePoint cast ops self.wrist_pose_ self.target_pt_
                  C B).x + cast self.intr_.cx - cast self.obs_.x,
               cast self.intr_.fy * (cameraFramePoint cast ops self.wrist_pose_ self.target_pt_
                  C B).y + cast self.intr_.cy - cast self.obs_.y⟩) := by
  refine ⟨rfl, fun hz => ?_⟩
  rw [operator_snd cast ops self C B, projectPoint_of_eq_zero cast ops self.intr_ _ hz]
  rfl

/-- Evaluation of C7 on the rationals: the target point `(2, 3, 0)` moved by the target
translation `(1, 0, 0)` has camera-frame coordinates `(3, 3, 0)`; the functor returns `true` and
the residual `(550 * 3 + 320 - 400, 550 * 3 + 240 - 400) = (1570, 1490)`. -/
theorem operator_returns_true_witness :
    (cameraFramePoint (RingHom.id ℚ) ratScalar ⟨0, 0, 0, 0, 0, 0⟩ ⟨⟨2, 3, 0⟩⟩
        ⟨0, 0, 0, 0, 0, 0⟩ ⟨0, 0, 0, 1, 0, 0⟩).z = 0
      ∧ ((ReprojectionCost.mk ⟨400, 400⟩ ⟨550, 550, 320, 240⟩ ⟨0, 0, 0, 0, 0, 0⟩
            ⟨⟨2, 3, 0⟩⟩).operator (RingHom.id ℚ) ratScalar
            ⟨0, 0, 0, 0, 0, 0⟩ ⟨0, 0, 0, 1, 0, 0⟩).1 = true
      ∧ ((ReprojectionCost.mk ⟨400, 400⟩ ⟨550, 550, 320, 240⟩ ⟨0, 0, 0, 0, 0, 0⟩
            ⟨⟨2, 3, 0⟩⟩).operator (RingHom.id ℚ) ratScalar
            ⟨0, 0, 0, 0, 0, 0⟩ ⟨0, 0, 0, 1, 0, 0⟩).2 = ⟨1570, 1490⟩ := by
  have hz : (cameraFramePoint (RingHom.id ℚ) ratScalar ⟨0, 0, 0, 0, 0, 0⟩ ⟨⟨2, 3, 0⟩⟩
      ⟨0, 0, 0, 0, 0, 0⟩ ⟨0, 0, 0, 1, 0, 0⟩).z = 0 := by
    norm_num [cameraFramePoint, Pose6d.values, ParamBlock.map, Vec3.map,
      applyPose_zero_rotation]
  have h := operator_returns_true (RingHom.id ℚ) ratScalar
    (ReprojectionCost.mk ⟨400, 400⟩ ⟨550, 550, 320, 240⟩ ⟨0, 0, 0, 0, 0, 0⟩ ⟨⟨2, 3, 0⟩⟩)
    ⟨0, 0, 0, 0, 0, 0⟩ ⟨0, 0, 0, 1, 0, 0⟩
  refine ⟨hz, h.1, ?_⟩
  rw [h.2 hz]
  norm_num [cameraFramePoint, Pose6d.values, ParamBlock.map, Vec3.map,
    applyPose_zero_rotation]

/-! ## Rigid transforms -/

/-- C5: applying a pose is rotate-then-translate and is the same for a fixed pose and for a free
parameter block.  For every `Pose6d` pose and point `p`, `poseTransformPoint(pose, p)` equals
`transformPoint((rx, ry, rz), (x, y, z), p)`, and both equal
`AngleAxisRotatePoint(axis_angle, p) + translation` componentwise, as does `transformPoint` for
every axis-angle vector and translation of type `T`. -/
theorem poseTransformPoint_eq_transformPoint {D T : Type} [Field D] [LinearOrderedField T]
    (cast : D →+* T) (ops : Scalar T) (pose : Pose6d D) (angle_axis tx p : Vec3 T) :
    poseTransformPoint cast ops pose p
        = transformPoint cast ops ⟨cast pose.rx, cast pose.ry, cast pose.rz⟩
            ⟨cast pose.x, cast pose.y, cast pose.z⟩ p
      ∧ poseTransformPoint cast ops pose p
        = Vec3.add (AngleAxisRotatePoint cast ops ⟨cast pose.rx, cast pose.ry, cast pose.rz⟩ p)
            ⟨cast pose.x, cast pose.y, cast pose.z⟩
      ∧ transformPoint cast ops angle_axis tx p
        = Vec3.add (AngleAxisRotatePoint cast ops angle_axis p) tx :=
  ⟨rfl, rfl, rfl⟩

/-- C6: zero rotation is a no-op.  For every translation `t` and point `p`, `transformPoint` with
axis-angle `(0, 0, 0)` returns `p + t`, and `poseTransformPoint` with a pose whose
`rx = ry = rz = 0` returns `p + (x, y, z)`.  No division by the zero rotation angle occurs: the
equations hold for every `ops`, whatever its division returns for a zero divisor. -/
theorem zero_rotation_noop {D T : Type} [Field D] [LinearOrderedField T]
    (cast : D →+* T) (ops : Scalar T) (t p : Vec3 T) (x y z : D) :
    transformPoint cast ops ⟨0, 0, 0⟩ t p = Vec3.add p t
      ∧ poseTransformPoint cast ops ⟨0, 0, 0, x, y, z⟩ p
          = Vec3.add p ⟨cast x, cast y, cast z⟩ := by
  constructor
  · simp [transformPoint, AngleAxisRotatePoint_zero, Vec3.add]
  · simp [poseTransformPoint, AngleAxisRotatePoint_zero, Vec3.add]

/-! ## The entry point `optimize` -/

/-- C8, as stated, fails: on the well-posed synthetic problem `syntheticProblem` (16 exact
observations of 4 non-coplanar target points, 12 free parameters, guesses one thousandth off
the truth) the result of `optimize` has `converged == false`, for every value of `M_PI` and every
behaviour of the scalar operations. -/
theorem optimize_well_posed_not_converged :
    (∀ ops : Scalar ℚ, WellPosedSynthetic ops syntheticTruthCamera syntheticTruthTarget
        (1 / 1000) syntheticProblem)
      ∧ ∀ (ops : Scalar ℚ) (M_PI : ℚ),
          ¬ ((optimize ops M_PI syntheticProblem).converged = true
              ∧ (optimize ops M_PI syntheticProblem).final_cost_per_obs
                  ≤ (optimize ops M_PI syntheticProblem).initial_cost_per_obs) := by
  refine ⟨syntheticProblem_wellPosed, fun ops M_PI h => ?_⟩
  have hc : (optimize ops M_PI syntheticProblem).converged = false := rfl
  rw [hc] at h
  exact Bool.false_ne_true h.1

/-- C8, amended: for every problem, well-posed or not, the result returned by `optimize` has
`converged == false` and `final_cost_per_obs <= initial_cost_per_obs`, both costs being 0. -/
theorem optimize_never_converged {D : Type} [LinearOrderedField D] (ops : Scalar D) (M_PI : D)
    (params : ExtrinsicCameraOnWristParameters D) :
    (optimize ops M_PI params).converged = false
      ∧ (optimize ops M_PI params).final_cost_per_obs
          ≤ (optimize ops M_PI params).initial_cost_per_obs
      ∧ (optimize ops M_PI params).final_cost_per_obs = 0
      ∧ (optimize ops M_PI params).initial_cost_per_obs = 0 :=
  ⟨rfl, le_refl _, rfl, rfl⟩

/-- C9, as stated, fails: `mismatchedProblem` has 2 wrist poses and 1 image, and `optimize`
returns a result for it, the value-initialised one, instead of reporting an error. -/
theorem optimize_mismatched_returns_result :
    mismatchedProblem.wrist_poses.length ≠ mismatchedProblem.image_observations.length
      ∧ ∀ (ops : Scalar ℚ) (M_PI : ℚ),
          optimize ops M_PI mismatchedProblem
            = ExtrinsicCameraOnWristResult.value_initialized := by
  refine ⟨by decide, fun _ _ => rfl⟩

/-- C9, amended: `optimize` does not validate its input.  For every problem whose per-image
vectors `wrist_poses` and `image_observations` have different lengths it returns a result, the
value-initialised one, as it does for any other problem. -/
theorem optimize_no_validation {D : Type} [LinearOrderedField D] (ops : Scalar D) (M_PI : D)
    (params : ExtrinsicCameraOnWristParameters D)
    (_hlen : params.wrist_poses.length ≠ params.image_observations.length) :
    optimize ops M_PI params = ExtrinsicCameraOnWristResult.value_initialized :=
  rfl

/-- Evaluation of the amended C9: a problem with no wrist pose and one empty image. -/
theorem optimize_no_validation_witness :
    ([] : List (Pose6d ℚ)).length ≠ ([[]] : List (List (Correspondence ℚ))).length
      ∧ optimize ratScalar M_PI_double
          ⟨⟨550, 550, 320, 240⟩, [], [[]], ⟨0, 0, 0, 1, 0, 0⟩, ⟨0, 0, 0, 0, 0, 1⟩⟩
          = ExtrinsicCameraOnWristResult.value_initialized :=
  ⟨by decide, optimize_no_validation ratScalar M_PI_double
    ⟨⟨550, 550, 320, 240⟩, [], [[]], ⟨0, 0, 0, 1, 0, 0⟩, ⟨0, 0, 0, 0, 0, 1⟩⟩ (by decide)⟩

/-- C10: `optimize(ExtrinsicCameraOnWristParameters)` ignores its input entirely.  For every two
inputs `params1` and `params2` it returns the same result, and that result is the empty
(value-initialised) result. -/
theorem optimize_ignores_input {D : Type} [LinearOrderedField D] (ops : Scalar D) (M_PI : D)
    (params1 params2 : ExtrinsicCameraOnWristParameters D) :
    optimize ops M_PI params1 = optimize ops M_PI params2
      ∧ optimize ops M_PI params1 = ExtrinsicCameraOnWristResult.value_initialized :=
  ⟨rfl, rfl⟩

/-! ## Relations between the projection paths -/

/-- C12: the two projection code paths agree.  For every point (of zero depth or not), intrinsics
and observed pixel `(ox, oy)`, `cameraPointResidual(point, fx, fy, cx, cy, ox, oy)` equals
`projectPoint(intr, point) - (ox, oy)`; and the residual that `ReprojectionCost::operator()`
computes from `projectPoint` is `cameraPointResidual` at the camera-frame point, the intrinsics
and the stored observation. -/
theorem cameraPointResidual_eq_projectPoint_sub {D T : Type} [Field D] [LinearOrderedField T]
    (cast : D →+* T) (ops : Scalar T) (intr : CameraIntrinsics D) (point : Vec3 T) (ox oy : T)
    (self : ReprojectionCost D) (C B : ParamBlock T) :
    cameraPointResidual ops point (cast intr.fx) (cast intr.fy) (cast intr.cx) (cast intr.cy)
        ox oy
        = Vec2.sub (projectPoint cast ops intr point) ⟨ox, oy⟩
      ∧ (self.operator cast ops C B).2
        = cameraPointResidual ops
            (cameraFramePoint cast ops self.wrist_pose_ self.target_pt_ C B)
            (cast self.intr_.fx) (cast self.intr_.fy) (cast self.intr_.cx) (cast self.intr_.cy)
            (cast self.obs_.x) (cast self.obs_.y) :=
  ⟨rfl, rfl⟩

/-- C15: for every axis-angle, translation and 3-element point, `transformPoint3D`, which takes
the point as a vector of doubles, returns the same result as `transformPoint` applied to that
point converted to the numeric type `T`. -/
theorem transformPoint3D_eq_transformPoint {D T : Type} [Field D] [LinearOrderedField T]
    (cast : D →+* T) (ops : Scalar T) (angle_axis tx : Vec3 T) (p0 p1 p2 : D) :
    transformPoint3D cast ops angle_axis tx [p0, p1, p2]
      = some (transformPoint cast ops angle_axis tx ⟨cast p0, cast p1, cast p2⟩) := rfl

/-! ## Scaling along the viewing ray -/

/-- C11, as stated, fails at `T = double`.  With `fx = fy = 550`, `cx = 320`, `cy = 240`:
the point `(1, 0, z)`, `z` the double nearest to 0.1, has pixel `(5820, 240)`, and scaled by
`k = 7`, the products rounded to binary64, it has a pixel whose first coordinate is one unit in
the last place below 5820; the point `(z, 0, z)` with `z = 2 ^ (-600)` has pixel `(870, 240)`,
and scaled by `k = 2 ^ (-600)` its coordinates underflow to 0, the guard on zero depth is taken
and the pixel is `(320, 240)`. -/
theorem binary64_projectPoint_not_scale_invariant :
    ((3602879701896397 / 36028797018963968 : ℚ) ≠ 0 ∧ (7 : ℚ) ≠ 0
      ∧ binary64.projectPoint ⟨F64.finite 550, F64.finite 550, F64.finite 320, F64.finite 240⟩
          ⟨F64.finite 1, F64.finite 0, F64.finite (3602879701896397 / 36028797018963968)⟩
        = ⟨F64.finite 5820, F64.finite 240⟩
      ∧ binary64.projectPoint ⟨F64.finite 550, F64.finite 550, F64.finite 320, F64.finite 240⟩
          ⟨F64.finite 7 * F64.finite 1, F64.finite 7 * F64.finite 0,
            F64.finite 7 * F64.finite (3602879701896397 / 36028797018963968)⟩
        = ⟨F64.finite (6399157673656319 / 1099511627776), F64.finite 240⟩)
      ∧ ((2 : ℚ) ^ (-600 : ℤ) ≠ 0
        ∧ binary64.projectPoint ⟨F64.finite 550, F64.finite 550, F64.finite 320, F64.finite 240⟩
            ⟨F64.finite ((2 : ℚ) ^ (-600 : ℤ)), F64.finite 0, F64.finite ((2 : ℚ) ^ (-600 : ℤ))⟩
          = ⟨F64.finite 870, F64.finite 240⟩
        ∧ binary64.projectPoint ⟨F64.finite 550, F64.finite 550, F64.finite 320, F64.finite 240⟩
            ⟨F64.finite ((2 : ℚ) ^ (-600 : ℤ)) * F64.finite ((2 : ℚ) ^ (-600 : ℤ)),
                F64.finite ((2 : ℚ) ^ (-600 : ℤ)) * F64.finite 0,
              F64.finite ((2 : ℚ) ^ (-600 : ℤ)) * F64.finite ((2 : ℚ) ^ (-600 : ℤ))⟩
          = ⟨F64.finite 320, F64.finite 240⟩) := by
  have m7z : F64.finite (7) * F64.finite (3602879701896397 / 36028797018963968)
      = F64.finite (6305039478318695 / 9007199254740992) := by
    rw [F64.finite_mul, F64.round_eq ((7) * (3602879701896397 / 36028797018963968)) (-1) (-53)
        (6305039478318695) (by norm_num) (by norm_num)
      (by decide) (by norm_num) (by norm_num) (by norm_num)]
    norm_num
  have m7x : F64.finite (7) * F64.finite (1) = F64.finite (7) := by
    rw [F64.finite_mul, F64.round_eq ((7) * (1)) (2) (-50) (7881299347898368) (by norm_num)
        (by norm_num)
      (by decide) (by norm_num) (by norm_num) (by norm_num)]
    norm_num
  have m7y : F64.finite (7) * F64.finite (0) = F64.finite (0) := by
    rw [F64.finite_mul, mul_zero, F64.round_zero]
  have qxo : F64.round (1 / (3602879701896397 / 36028797018963968)) = F64.finite (10) := by
    rw [F64.round_eq (1 / (3602879701896397 / 36028797018963968)) (3) (-49) (5629499534213120)
        (by norm_num) (by norm_num) (by decide)
      (by norm_num) (by norm_num) (by norm_num)]
    norm_num
  have qxs : F64.round (7 / (6305039478318695 / 9007199254740992))
      = F64.finite (5629499534213119 / 562949953421312) := by
    rw [F64.round_eq (7 / (6305039478318695 / 9007199254740992)) (3) (-49) (5629499534213119)
        (by norm_num) (by norm_num) (by decide)
      (by norm_num) (by norm_num) (by norm_num)]
    norm_num
  have mpo : F64.finite (550) * F64.finite (10) = F64.finite (5500) := by
    rw [F64.finite_mul, F64.round_eq ((550) * (10)) (12) (-40) (6047313952768000) (by norm_num)
        (by norm_num)
      (by decide) (by norm_num) (by norm_num) (by norm_num)]
    norm_num
  have mps : F64.finite (550) * F64.finite (5629499534213119 / 562949953421312)
      = F64.finite (6047313952767999 / 1099511627776) := by
    rw [F64.finite_mul, F64.round_eq ((550) * (5629499534213119 / 562949953421312)) (12) (-40)
        (6047313952767999) (by norm_num) (by norm_num)
      (by decide) (by norm_num) (by norm_num) (by norm_num)]
    norm_num
  have mp0 : F64.finite (550) * F64.finite (0) = F64.finite (0) := by
    rw [F64.finite_mul, mul_zero, F64.round_zero]
  have auo : F64.finite (5500) + F64.finite (320) = F64.finite (5820) := by
    rw [F64.finite_add, F64.round_eq ((5500) + (320)) (12) (-40) (6399157673656320) (by norm_num)
        (by norm_num)
      (by decide) (by norm_num) (by norm_num) (by norm_num)]
    norm_num
  have aus : F64.finite (6047313952767999 / 1099511627776) + F64.finite (320)
      = F64.finite (6399157673656319 / 1099511627776) := by
    rw [F64.finite_add, F64.round_eq ((6047313952767999 / 1099511627776) + (320)) (12) (-40)
        (6399157673656319) (by norm_num) (by norm_num)
      (by decide) (by norm_num) (by norm_num) (by norm_num)]
    norm_num
  have a240 : F64.finite (0) + F64.finite (240) = F64.finite (240) := by
    rw [F64.finite_add, F64.round_eq ((0) + (240)) (7) (-45) (8444249301319680) (by norm_num)
        (by norm_num)
      (by decide) (by norm_num) (by norm_num) (by norm_num)]
    norm_num
  have a320 : F64.finite (0) + F64.finite (320) = F64.finite (320) := by
    rw [F64.finite_add, F64.round_eq ((0) + (320)) (8) (-44) (5629499534213120) (by norm_num)
        (by norm_num)
      (by decide) (by norm_num) (by norm_num) (by norm_num)]
    norm_num
  have m5501 : F64.finite (550) * F64.finite (1) = F64.finite (550) := by
    rw [F64.finite_mul, F64.round_eq ((550) * (1)) (9) (-43) (4837851162214400) (by norm_num)
        (by norm_num)
      (by decide) (by norm_num) (by norm_num) (by norm_num)]
    norm_num
  have a870 : F64.finite (550) + F64.finite (320) = F64.finite (870) := by
    rw [F64.finite_add, F64.round_eq ((550) + (320)) (9) (-43) (7652600929320960) (by norm_num)
        (by norm_num)
      (by decide) (by norm_num) (by norm_num) (by norm_num)]
    norm_num
  have hz1 : ((3602879701896397 / 36028797018963968 : ℚ)) ≠ 0 := by norm_num
  have hz2 : ((6305039478318695 / 9007199254740992 : ℚ)) ≠ 0 := by norm_num
  have hz3 : (2 : ℚ) ^ (-600 : ℤ) ≠ 0 := zpow_ne_zero _ (by norm_num)
  have q0o : F64.round (0 / (3602879701896397 / 36028797018963968))
      = F64.finite 0 := by rw [zero_div, F64.round_zero]
  have q0s : F64.round (0 / (6305039478318695 / 9007199254740992))
      = F64.finite 0 := by rw [zero_div, F64.round_zero]
  have q0u : F64.round (0 / (2 : ℚ) ^ (-600 : ℤ)) = F64.finite 0 := by rw [zero_div, F64.round_zero]
  have q1u : F64.round ((2 : ℚ) ^ (-600 : ℤ) / (2 : ℚ) ^ (-600 : ℤ)) = F64.finite 1 := by
    rw [div_self hz3, F64.round_eq 1 0 (-52) (2 ^ 52) (by norm_num) (by norm_num) (by decide)
      (by norm_num) (by norm_num) (by norm_num)]
    norm_num
  have mund : F64.finite ((2 : ℚ) ^ (-600 : ℤ)) * F64.finite ((2 : ℚ) ^ (-600 : ℤ))
      = F64.finite 0 := by
    rw [F64.finite_mul, F64.round_eq ((2 : ℚ) ^ (-600 : ℤ) * (2 : ℚ) ^ (-600 : ℤ)) (-1200) (-1074)
        0 (by norm_num)
      (by norm_num) (by decide) (by norm_num) (by norm_num) (by norm_num)]
    norm_num
  have mun0 : F64.finite ((2 : ℚ) ^ (-600 : ℤ)) * F64.finite 0 = F64.finite 0 := by
    rw [F64.finite_mul, mul_zero, F64.round_zero]
  refine ⟨⟨hz1, by norm_num, ?_, ?_⟩, hz3, ?_, ?_⟩
  · rw [binary64.projectPoint_mk, (binary64.imagePlanePoint_of_ne 1 0 _ hz1).1,
      (binary64.imagePlanePoint_of_ne 1 0 _ hz1).2, qxo, q0o, mpo, mp0, auo, a240]
  · rw [m7x, m7y, m7z, binary64.projectPoint_mk, (binary64.imagePlanePoint_of_ne 7 0 _ hz2).1,
      (binary64.imagePlanePoint_of_ne 7 0 _ hz2).2, qxs, q0s, mps, mp0, aus, a240]
  · rw [binary64.projectPoint_mk, (binary64.imagePlanePoint_of_ne _ 0 _ hz3).1,
      (binary64.imagePlanePoint_of_ne _ 0 _ hz3).2, q1u, q0u, m5501, mp0, a870, a240]
  · rw [mund, mun0, binary64.projectPoint_mk, (binary64.imagePlanePoint_of_zero _ _).1,
      (binary64.imagePlanePoint_of_zero _ _).2, mp0, a320, a240]

/-- C11, amended: projection is invariant under scaling along the viewing ray when the scaling
is computed without rounding.  At `T = double`, for every intrinsics, every finite point
`(x, y, z)` with `z ≠ 0` and every finite `k ≠ 0` such that the three products `k * x`, `k * y`,
`k * z` are exact, `projectPoint` of the scaled point equals `projectPoint` of `(x, y, z)`.  In a
numeric type with exact arithmetic the products are always exact and the invariance holds for
every `k ≠ 0`. -/
theorem binary64_projectPoint_scale_invariant_of_exact
    (intr : CameraIntrinsics F64) (x y z k : ℚ) (hz : z ≠ 0) (hk : k ≠ 0)
    (hkx : F64.finite k * F64.finite x = F64.finite (k * x))
    (hky : F64.finite k * F64.finite y = F64.finite (k * y))
    (hkz : F64.finite k * F64.finite z = F64.finite (k * z)) :
    binary64.projectPoint intr
        ⟨F64.finite k * F64.finite x, F64.finite k * F64.finite y, F64.finite k * F64.finite z⟩
        = binary64.projectPoint intr ⟨F64.finite x, F64.finite y, F64.finite z⟩
      ∧ ∀ (D T : Type) [Field D] [LinearOrderedField T] (cast : D →+* T) (ops : Scalar T)
          (intr : CameraIntrinsics D) (x y z k : T), z ≠ 0 → k ≠ 0 →
          projectPoint cast ops intr ⟨k * x, k * y, k * z⟩
            = projectPoint cast ops intr ⟨x, y, z⟩ := by
  refine ⟨?_, fun D T _ _ cast ops intr x y z k hz hk =>
    projectPoint_scale_invariant cast ops intr x y z k hz hk⟩
  have hkz0 : k * z ≠ 0 := mul_ne_zero hk hz
  obtain ⟨fx, fy, cx, cy⟩ := intr
  rw [hkx, hky, hkz, binary64.projectPoint_mk, binary64.projectPoint_mk,
    (binary64.imagePlanePoint_of_ne _ _ _ hkz0).1, (binary64.imagePlanePoint_of_ne _ _ _ hkz0).2,
    (binary64.imagePlanePoint_of_ne _ _ _ hz).1, (binary64.imagePlanePoint_of_ne _ _ _ hz).2,
    mul_div_mul_left _ _ hk, mul_div_mul_left _ _ hk]

/-- Evaluation of the amended C11 at `T = double`: the point `(1, 2, 3)` scaled by 4. -/
theorem binary64_projectPoint_scale_invariant_of_exact_witness :
    (3 : ℚ) ≠ 0 ∧ (4 : ℚ) ≠ 0
      ∧ F64.finite 4 * F64.finite 1 = F64.finite (4 * 1)
      ∧ F64.finite 4 * F64.finite 2 = F64.finite (4 * 2)
      ∧ F64.finite 4 * F64.finite 3 = F64.finite (4 * 3)
      ∧ binary64.projectPoint ⟨F64.finite 550, F64.finite 550, F64.finite 320, F64.finite 240⟩
          ⟨F64.finite 4 * F64.finite 1, F64.finite 4 * F64.finite 2,
            F64.finite 4 * F64.finite 3⟩
        = binary64.projectPoint ⟨F64.finite 550, F64.finite 550, F64.finite 320, F64.finite 240⟩
            ⟨F64.finite 1, F64.finite 2, F64.finite 3⟩ := by
  have h1 : F64.finite (4) * F64.finite (1) = F64.finite (4 * 1) := by
    rw [F64.finite_mul, F64.round_eq ((4) * (1)) (2) (-50) (4503599627370496) (by norm_num)
        (by norm_num)
      (by decide) (by norm_num) (by norm_num) (by norm_num)]
    norm_num
  have h2 : F64.finite (4) * F64.finite (2) = F64.finite (4 * 2) := by
    rw [F64.finite_mul, F64.round_eq ((4) * (2)) (3) (-49) (4503599627370496) (by norm_num)
        (by norm_num)
      (by decide) (by norm_num) (by norm_num) (by norm_num)]
    norm_num
  have h3 : F64.finite (4) * F64.finite (3) = F64.finite (4 * 3) := by
    rw [F64.finite_mul, F64.round_eq ((4) * (3)) (3) (-49) (6755399441055744) (by norm_num)
        (by norm_num)
      (by decide) (by norm_num) (by norm_num) (by norm_num)]
    norm_num
  exact ⟨by norm_num, by norm_num, h1, h2, h3,
    (binary64_projectPoint_scale_invariant_of_exact ⟨F64.finite 550, F64.finite 550, F64.finite 320,
        F64.finite 240⟩ 1 2 3 4 (by norm_num) (by norm_num)
      h1 h2 h3).1⟩

/-! ## Shift of the principal point and of the observation -/

/-- C13, as stated, fails at `T = double`.  For the functor with observation `(400, 400)`,
intrinsics `fx = fy = 550`, `cx = 320`, `cy = 240`, zero wrist pose and target point `(1, 1, 2)`,
called on zero parameter blocks, the residual is `(195, 115)`; after the common shift
`du = dv = 2 ^ 60` of the principal point and of the observation, each sum rounded to binary64,
the residual is `(0, 0)`. -/
theorem binary64_operator_shift_changes_residual :
    (∀ libm : Libm,
      binary64.operator libm
          ⟨⟨F64.finite 400, F64.finite 400⟩, ⟨F64.finite 550, F64.finite 550, F64.finite 320,
              F64.finite 240⟩, ⟨F64.finite 0, F64.finite 0, F64.finite 0, F64.finite 0,
              F64.finite 0, F64.finite 0⟩, ⟨⟨F64.finite 1, F64.finite 1, F64.finite 2⟩⟩⟩
          ⟨F64.finite 0, F64.finite 0, F64.finite 0, F64.finite 0, F64.finite 0, F64.finite 0⟩
              ⟨F64.finite 0, F64.finite 0, F64.finite 0, F64.finite 0, F64.finite 0, F64.finite 0⟩
        = (true, ⟨F64.finite 195, F64.finite 115⟩))
      ∧ ∀ libm : Libm, binary64.operator libm
          ⟨⟨F64.finite 400 + F64.finite (2 ^ 60), F64.finite 400 + F64.finite (2 ^ 60)⟩,
            ⟨F64.finite 550, F64.finite 550, F64.finite 320 + F64.finite (2 ^ 60),
              F64.finite 240 + F64.finite (2 ^ 60)⟩, ⟨F64.finite 0, F64.finite 0, F64.finite 0,
                  F64.finite 0, F64.finite 0, F64.finite 0⟩, ⟨⟨F64.finite 1, F64.finite 1,
                  F64.finite 2⟩⟩⟩
          ⟨F64.finite 0, F64.finite 0, F64.finite 0, F64.finite 0, F64.finite 0, F64.finite 0⟩
              ⟨F64.finite 0, F64.finite 0, F64.finite 0, F64.finite 0, F64.finite 0, F64.finite 0⟩
        = (true, ⟨F64.finite 0, F64.finite 0⟩) := by
  have r1 : F64.round ((1 : ℚ)) = F64.finite (1) := by
    rw [F64.round_eq ((1 : ℚ)) (0) (-52) (4503599627370496) (by norm_num) (by norm_num) (by decide)
      (by norm_num) (by norm_num) (by norm_num)]
    norm_num
  have r2 : F64.round ((2 : ℚ)) = F64.finite (2) := by
    rw [F64.round_eq ((2 : ℚ)) (1) (-51) (4503599627370496) (by norm_num) (by norm_num) (by decide)
      (by norm_num) (by norm_num) (by norm_num)]
    norm_num
  have rh : F64.round ((1 : ℚ) / 2) = F64.finite (1 / 2) := by
    rw [F64.round_eq ((1 : ℚ) / 2) (-1) (-53) (4503599627370496) (by norm_num) (by norm_num)
        (by decide)
      (by norm_num) (by norm_num) (by norm_num)]
    norm_num
  have mP : F64.finite (550) * F64.finite (1 / 2) = F64.finite (275) := by
    rw [F64.finite_mul, F64.round_eq ((550) * (1 / 2)) (8) (-44) (4837851162214400) (by norm_num)
        (by norm_num)
      (by decide) (by norm_num) (by norm_num) (by norm_num)]
    norm_num
  have aU : F64.finite (275) + F64.finite (320) = F64.finite (595) := by
    rw [F64.finite_add, F64.round_eq ((275) + (320)) (9) (-43) (5233675348213760) (by norm_num)
        (by norm_num)
      (by decide) (by norm_num) (by norm_num) (by norm_num)]
    norm_num
  have aV : F64.finite (275) + F64.finite (240) = F64.finite (515) := by
    rw [F64.finite_add, F64.round_eq ((275) + (240)) (9) (-43) (4529987906437120) (by norm_num)
        (by norm_num)
      (by decide) (by norm_num) (by norm_num) (by norm_num)]
    norm_num
  have sU : F64.finite (595) - F64.finite (400) = F64.finite (195) := by
    rw [F64.finite_sub, F64.round_eq ((595) - (400)) (7) (-45) (6860952557322240) (by norm_num)
        (by norm_num)
      (by decide) (by norm_num) (by norm_num) (by norm_num)]
    norm_num
  have sV : F64.finite (515) - F64.finite (400) = F64.finite (115) := by
    rw [F64.finite_sub, F64.round_eq ((515) - (400)) (6) (-46) (8092405580431360) (by norm_num)
        (by norm_num)
      (by decide) (by norm_num) (by norm_num) (by norm_num)]
    norm_num
  have e1 : F64.finite (320) + F64.finite (2 ^ 60) = F64.finite (2 ^ 60 + 256) := by
    rw [F64.finite_add, F64.round_eq ((320) + (2 ^ 60)) (60) (8) (4503599627370497) (by norm_num)
        (by norm_num)
      (by decide) (by norm_num) (by norm_num) (by norm_num)]
    norm_num
  have e2 : F64.finite (240) + F64.finite (2 ^ 60) = F64.finite (2 ^ 60 + 256) := by
    rw [F64.finite_add, F64.round_eq ((240) + (2 ^ 60)) (60) (8) (4503599627370497) (by norm_num)
        (by norm_num)
      (by decide) (by norm_num) (by norm_num) (by norm_num)]
    norm_num
  have e3 : F64.finite (400) + F64.finite (2 ^ 60) = F64.finite (2 ^ 60 + 512) := by
    rw [F64.finite_add, F64.round_eq ((400) + (2 ^ 60)) (60) (8) (4503599627370498) (by norm_num)
        (by norm_num)
      (by decide) (by norm_num) (by norm_num) (by norm_num)]
    norm_num
  have e4 : F64.finite (275) + F64.finite (2 ^ 60 + 256) = F64.finite (2 ^ 60 + 512) := by
    rw [F64.finite_add, F64.round_eq ((275) + (2 ^ 60 + 256)) (60) (8) (4503599627370498)
        (by norm_num) (by norm_num)
      (by decide) (by norm_num) (by norm_num) (by norm_num)]
    norm_num
  have e5 : F64.finite (2 ^ 60 + 512) - F64.finite (2 ^ 60 + 512) = F64.finite 0 := by
    rw [F64.finite_sub, sub_self, F64.round_zero]
  have h2ne : (2 : ℚ) ≠ 0 := by norm_num
  constructor
  · intro libm
    rw [binary64.operator_mk, binary64.camera_point_zero_poses libm _ _ 1 1 2 r1 r1 r2,
      (binary64.imagePlanePoint_of_ne 1 1 2 h2ne).1, (binary64.imagePlanePoint_of_ne 1 1 2 h2ne).2,
      rh, mP, aU, aV, sU, sV]
  · intro libm
    rw [e1, e2, e3, binary64.operator_mk, binary64.camera_point_zero_poses libm _ _ 1 1 2 r1 r1 r2,
      (binary64.imagePlanePoint_of_ne 1 1 2 h2ne).1, (binary64.imagePlanePoint_of_ne 1 1 2 h2ne).2,
      rh, mP, e4, e5]

/-- C13, amended: the residual is unchanged by a common shift `(du, dv)` of the principal point
and of the observation when the additions that involve them are computed without rounding.  At
`T = double`, with `Px = fx * xp` and `Py = fy * yp` the finite products formed in `projectPoint`
for the camera-frame point, if the sums `cx + du`, `cy + dv`, `ox + du`, `oy + dv`, `Px + cx`,
`Py + cy`, `Px + (cx + du)`, `Py + (cy + dv)` are exact, then `operator()` returns the same
output for the shifted and for the original functor.  In a numeric type with exact arithmetic
the sums are always exact and the invariance holds for every shift. -/
theorem binary64_operator_shift_invariant_of_exact (libm : Libm) (fx fy : F64)
    (cx cy ox oy du dv : ℚ) (W : Pose6d F64) (p : Point3d F64) (C B : ParamBlock F64)
    (Px Py : ℚ)
    (hPx : fx * (binary64.imagePlanePoint (binary64.camera_point libm
        ⟨⟨F64.finite ox, F64.finite oy⟩, ⟨fx, fy, F64.finite cx, F64.finite cy⟩, W, p⟩ C B)).1
      = F64.finite Px)
    (hPy : fy * (binary64.imagePlanePoint (binary64.camera_point libm
        ⟨⟨F64.finite ox, F64.finite oy⟩, ⟨fx, fy, F64.finite cx, F64.finite cy⟩, W, p⟩ C B)).2
      = F64.finite Py)
    (hcx : F64.finite cx + F64.finite du = F64.finite (cx + du))
    (hcy : F64.finite cy + F64.finite dv = F64.finite (cy + dv))
    (hox : F64.finite ox + F64.finite du = F64.finite (ox + du))
    (hoy : F64.finite oy + F64.finite dv = F64.finite (oy + dv))
    (hux : F64.finite Px + F64.finite cx = F64.finite (Px + cx))
    (huy : F64.finite Py + F64.finite cy = F64.finite (Py + cy))
    (hsx : F64.finite Px + F64.finite (cx + du) = F64.finite (Px + (cx + du)))
    (hsy : F64.finite Py + F64.finite (cy + dv) = F64.finite (Py + (cy + dv))) :
    binary64.operator libm
        ⟨⟨F64.finite ox + F64.finite du, F64.finite oy + F64.finite dv⟩,
          ⟨fx, fy, F64.finite cx + F64.finite du, F64.finite cy + F64.finite dv⟩, W, p⟩ C B
        = binary64.operator libm
            ⟨⟨F64.finite ox, F64.finite oy⟩, ⟨fx, fy, F64.finite cx, F64.finite cy⟩, W, p⟩ C B
      ∧ ∀ (D T : Type) [Field D] [LinearOrderedField T] (cast : D →+* T) (ops : Scalar T)
          (obs : Observation2d D) (intr : CameraIntrinsics D) (W : Pose6d D) (p : Point3d D)
          (C B : ParamBlock T) (du dv : D),
          (ReprojectionCost.mk ⟨obs.x + du, obs.y + dv⟩
              ⟨intr.fx, intr.fy, intr.cx + du, intr.cy + dv⟩ W p).operator cast ops C B
            = (ReprojectionCost.mk obs intr W p).operator cast ops C B := by
  refine ⟨?_, fun D T _ _ cast ops obs intr W p C B du dv =>
    operator_principal_point_shift cast ops obs intr W p C B du dv⟩
  have ex : Px + (cx + du) - (ox + du) = Px + cx - ox := by ring
  have ey : Py + (cy + dv) - (oy + dv) = Py + cy - oy := by ring
  rw [hcx, hcy, hox, hoy, binary64.operator_mk, binary64.operator_mk,
    binary64.camera_point_congr libm ⟨F64.finite (ox + du), F64.finite (oy + dv)⟩
      ⟨F64.finite ox, F64.finite oy⟩ ⟨fx, fy, F64.finite (cx + du), F64.finite (cy + dv)⟩
      ⟨fx, fy, F64.finite cx, F64.finite cy⟩ W p C B,
    hPx, hPy, hsx, hsy, hux, huy, F64.finite_sub, F64.finite_sub, F64.finite_sub,
    F64.finite_sub, ex, ey]

/-- Evaluation of the amended C13 at `T = double`: observation `(400, 400)`, intrinsics
`fx = fy = 550`, `cx = 320`, `cy = 240`, target point `(1, 1, 2)`, zero poses, shift `(8, 8)`. -/
theorem binary64_operator_shift_invariant_of_exact_witness :
    F64.finite 320 + F64.finite 8 = F64.finite (320 + 8)
      ∧ F64.finite 400 + F64.finite 8 = F64.finite (400 + 8)
      ∧ F64.finite 275 + F64.finite 320 = F64.finite (275 + 320)
      ∧ F64.finite 275 + F64.finite (320 + 8) = F64.finite (275 + (320 + 8))
      ∧ binary64.operator ⟨id, id, id⟩
          ⟨⟨F64.finite 400 + F64.finite 8, F64.finite 400 + F64.finite 8⟩,
            ⟨F64.finite 550, F64.finite 550, F64.finite 320 + F64.finite 8,
              F64.finite 240 + F64.finite 8⟩, ⟨F64.finite 0, F64.finite 0, F64.finite 0,
                  F64.finite 0, F64.finite 0, F64.finite 0⟩, ⟨⟨F64.finite 1, F64.finite 1,
                  F64.finite 2⟩⟩⟩
          ⟨F64.finite 0, F64.finite 0, F64.finite 0, F64.finite 0, F64.finite 0, F64.finite 0⟩
              ⟨F64.finite 0, F64.finite 0, F64.finite 0, F64.finite 0, F64.finite 0, F64.finite 0⟩
        = binary64.operator ⟨id, id, id⟩
            ⟨⟨F64.finite 400, F64.finite 400⟩, ⟨F64.finite 550, F64.finite 550, F64.finite 320,
                F64.finite 240⟩, ⟨F64.finite 0, F64.finite 0, F64.finite 0, F64.finite 0,
                F64.finite 0, F64.finite 0⟩, ⟨⟨F64.finite 1, F64.finite 1, F64.finite 2⟩⟩⟩
            ⟨F64.finite 0, F64.finite 0, F64.finite 0, F64.finite 0, F64.finite 0, F64.finite 0⟩
                ⟨F64.finite 0, F64.finite 0, F64.finite 0, F64.finite 0, F64.finite 0, F64.finite 0⟩
                := by
  have r1 : F64.round ((1 : ℚ)) = F64.finite (1) := by
    rw [F64.round_eq ((1 : ℚ)) (0) (-52) (4503599627370496) (by norm_num) (by norm_num) (by decide)
      (by norm_num) (by norm_num) (by norm_num)]
    norm_num
  have r2 : F64.round ((2 : ℚ)) = F64.finite (2) := by
    rw [F64.round_eq ((2 : ℚ)) (1) (-51) (4503599627370496) (by norm_num) (by norm_num) (by decide)
      (by norm_num) (by norm_num) (by norm_num)]
    norm_num
  have rh : F64.round ((1 : ℚ) / 2) = F64.finite (1 / 2) := by
    rw [F64.round_eq ((1 : ℚ) / 2) (-1) (-53) (4503599627370496) (by norm_num) (by norm_num)
        (by decide)
      (by norm_num) (by norm_num) (by norm_num)]
    norm_num
  have mP : F64.finite (550) * F64.finite (1 / 2) = F64.finite (275) := by
    rw [F64.finite_mul, F64.round_eq ((550) * (1 / 2)) (8) (-44) (4837851162214400) (by norm_num)
        (by norm_num)
      (by decide) (by norm_num) (by norm_num) (by norm_num)]
    norm_num
  have a1 : F64.finite (320) + F64.finite (8) = F64.finite (320 + 8) := by
    rw [F64.finite_add, F64.round_eq ((320) + (8)) (8) (-44) (5770237022568448) (by norm_num)
        (by norm_num)
      (by decide) (by norm_num) (by norm_num) (by norm_num)]
    norm_num
  have a2 : F64.finite (240) + F64.finite (8) = F64.finite (240 + 8) := by
    rw [F64.finite_add, F64.round_eq ((240) + (8)) (7) (-45) (8725724278030336) (by norm_num)
        (by norm_num)
      (by decide) (by norm_num) (by norm_num) (by norm_num)]
    norm_num
  have a3 : F64.finite (400) + F64.finite (8) = F64.finite (400 + 8) := by
    rw [F64.finite_add, F64.round_eq ((400) + (8)) (8) (-44) (7177611906121728) (by norm_num)
        (by norm_num)
      (by decide) (by norm_num) (by norm_num) (by norm_num)]
    norm_num
  have a4 : F64.finite (275) + F64.finite (320) = F64.finite (275 + 320) := by
    rw [F64.finite_add, F64.round_eq ((275) + (320)) (9) (-43) (5233675348213760) (by norm_num)
        (by norm_num)
      (by decide) (by norm_num) (by norm_num) (by norm_num)]
    norm_num
  have a5 : F64.finite (275) + F64.finite (240) = F64.finite (275 + 240) := by
    rw [F64.finite_add, F64.round_eq ((275) + (240)) (9) (-43) (4529987906437120) (by norm_num)
        (by norm_num)
      (by decide) (by norm_num) (by norm_num) (by norm_num)]
    norm_num
  have a6 : F64.finite (275) + F64.finite (320 + 8) = F64.finite (275 + (320 + 8)) := by
    rw [F64.finite_add, F64.round_eq ((275) + (320 + 8)) (9) (-43) (5304044092391424) (by norm_num)
        (by norm_num)
      (by decide) (by norm_num) (by norm_num) (by norm_num)]
    norm_num
  have a7 : F64.finite (275) + F64.finite (240 + 8) = F64.finite (275 + (240 + 8)) := by
    rw [F64.finite_add, F64.round_eq ((275) + (240 + 8)) (9) (-43) (4600356650614784) (by norm_num)
        (by norm_num)
      (by decide) (by norm_num) (by norm_num) (by norm_num)]
    norm_num
  have h2ne : (2 : ℚ) ≠ 0 := by norm_num
  have hPx : F64.finite 550 * (binary64.imagePlanePoint (binary64.camera_point ⟨id, id, id⟩
      ⟨⟨F64.finite 400, F64.finite 400⟩, ⟨F64.finite 550, F64.finite 550, F64.finite 320,
          F64.finite 240⟩, ⟨F64.finite 0, F64.finite 0, F64.finite 0, F64.finite 0, F64.finite 0,
          F64.finite 0⟩, ⟨⟨F64.finite 1, F64.finite 1, F64.finite 2⟩⟩⟩
      ⟨F64.finite 0, F64.finite 0, F64.finite 0, F64.finite 0, F64.finite 0, F64.finite 0⟩
          ⟨F64.finite 0, F64.finite 0, F64.finite 0, F64.finite 0, F64.finite 0,
          F64.finite 0⟩)).1 = F64.finite 275 := by
    rw [binary64.camera_point_zero_poses _ _ _ 1 1 2 r1 r1 r2,
      (binary64.imagePlanePoint_of_ne 1 1 2 h2ne).1, rh, mP]
  have hPy : F64.finite 550 * (binary64.imagePlanePoint (binary64.camera_point ⟨id, id, id⟩
      ⟨⟨F64.finite 400, F64.finite 400⟩, ⟨F64.finite 550, F64.finite 550, F64.finite 320,
          F64.finite 240⟩, ⟨F64.finite 0, F64.finite 0, F64.finite 0, F64.finite 0, F64.finite 0,
          F64.finite 0⟩, ⟨⟨F64.finite 1, F64.finite 1, F64.finite 2⟩⟩⟩
      ⟨F64.finite 0, F64.finite 0, F64.finite 0, F64.finite 0, F64.finite 0, F64.finite 0⟩
          ⟨F64.finite 0, F64.finite 0, F64.finite 0, F64.finite 0, F64.finite 0,
          F64.finite 0⟩)).2 = F64.finite 275 := by
    rw [binary64.camera_point_zero_poses _ _ _ 1 1 2 r1 r1 r2,
      (binary64.imagePlanePoint_of_ne 1 1 2 h2ne).2, rh, mP]
  exact ⟨a1, a3, a4, a6,
    (binary64_operator_shift_invariant_of_exact ⟨id, id, id⟩ (F64.finite 550) (F64.finite 550)
      320 240 400 400 8 8 _ _ _ _ 275 275 hPx hPy a1 a2 a3 a3 a4 a5 a6 a7).1⟩

/-! ## The evaluation hard-coded in `optimize` -/

end rct_optimizations
